import Mathlib

/-!
# Tile-collision platformer: shallow embedding of `platformer.c`

Conventions of the embedding.

* C `int` values are unbounded `ℤ` (no claim below depends on 32-bit wrap-around).
* C `float` values are rationals `ℚ`. The functions are first given in exact arithmetic;
  every concrete input used with them is exactly representable in a `float` and produces
  no rounding. `MoveCalc` and `GravityCalc`, whose convergence and strict growth depend on
  rounding, also have the versions `MoveCalcWith` and `GravityCalcWith`, in which every
  `float` operation is rounded by a function `fl`; `roundFloat` is IEEE 754 binary32
  round-to-nearest-even, each operation rounded on its own, without infinities.
* The globals `TILE_MAP_WIDTH`, `TILE_MAP_HEIGHT` and `tiles` are the record `TileMap`;
  the global `delta` is an explicit parameter.
* `tiles[i]` outside the allocated array is undefined behaviour in C; a lookup that would
  read there returns `none`, and every function that performs lookups is `Option`-valued.
* `instance->control` always points at the single global `input`, so the pointee is stored
  in the entity record.
-/

namespace Platformer

/-! ## Constants and types -/

/-- Tile code `#define EMPTY -1`. -/
def EMPTY : ℤ := -1

/-- Tile code `#define BLOCK 0`. -/
def BLOCK : ℤ := 0

/-- Global `const int TILE_SIZE = 16`. -/
def TILE_SIZE : ℤ := 16

/-- Global `const int TILE_SHIFT = 4`. -/
def TILE_SHIFT : ℕ := 4

/-- Global `const int TILE_ROUND = 15`. -/
def TILE_ROUND : ℤ := 15

/-- The raylib pair of floats. -/
structure Vector2 where
  x : ℚ
  y : ℚ
  deriving DecidableEq

/-- The `Input` snapshot. -/
structure Input where
  right : Bool
  left : Bool
  up : Bool
  down : Bool
  jump : Bool
  deriving DecidableEq

/-- The `Entity` record; `control` holds the pointee of `Input *control`. -/
structure Entity where
  width : ℤ
  height : ℤ
  position : Vector2
  direction : ℚ
  maxSpd : ℚ
  acc : ℚ
  dcc : ℚ
  gravity : ℚ
  jumpImpulse : ℚ
  jumpRelease : ℚ
  velocity : Vector2
  hsp : ℚ
  vsp : ℚ
  isGrounded : Bool
  isJumping : Bool
  control : Input
  deriving DecidableEq

/-- The tile-map globals: the two dimensions and the heap array `tiles`. -/
structure TileMap where
  TILE_MAP_WIDTH : ℤ
  TILE_MAP_HEIGHT : ℤ
  tiles : List ℤ
  deriving DecidableEq

/-! ## C primitives -/

/-- Conversion `float → int`: truncation toward zero. -/
def castInt (q : ℚ) : ℤ := Int.tdiv q.num q.den

/-- The source's `sign`: `-1` below zero, `0` below `0.0001`, else `1`. -/
def sign (x : ℚ) : ℤ :=
  if x < 0 then -1
  else if x < 1 / 10000 then 0
  else 1

/-- Modelled from the spec: raymath's `Clamp` is a library function that is not under
`src/`; the value is raised to `lo` when below it and then lowered to `hi` when above it. -/
def Clamp (value lo hi : ℚ) : ℚ :=
  let result := if value < lo then lo else value
  if result > hi then hi else result

/-- The expression `((int)(abs(v)) >> 12) * sign(v)`; `abs` is the integer `abs` of
`stdlib.h`, so its float argument is first converted to `int`. -/
def pixelStep (v : ℚ) : ℤ := (|castInt v| >>> 12) * sign v

/-- The expression `(abs(sp) << 12) * sign(sp)` applied to a float `sp`. -/
def wholePart (sp : ℚ) : ℤ := (|castInt sp| <<< 12) * sign sp

/-- The expression `v & ~TILE_ROUND` on two's-complement integers: clearing the low four
bits removes `v mod 16`. The theorem `tileFloor_eq_land` proves this equal to the bitwise
`Int.land v (Int.lnot TILE_ROUND)`. -/
def tileFloor (v : ℤ) : ℤ := v - v % (TILE_ROUND + 1)

/-! ## Tile functions -/

/-- The array read `tiles[i]`; `none` when `i` is outside the allocated array. -/
def readTile (m : TileMap) (i : ℤ) : Option ℤ :=
  if 0 ≤ i then m.tiles.get? i.toNat else none

/-- Source `MapGetTile`. -/
def MapGetTile (m : TileMap) (x y : ℤ) : Option ℤ :=
  if x < 0 ∨ x > m.TILE_MAP_WIDTH ∨ y < 0 ∨ y > m.TILE_MAP_HEIGHT then
    some EMPTY
  else
    readTile m (x + y * m.TILE_MAP_WIDTH)

/-- Source `MapGetTileWorld`; `x /= TILE_SIZE` is C's truncating division. -/
def MapGetTileWorld (m : TileMap) (x y : ℤ) : Option ℤ :=
  let x := Int.tdiv x TILE_SIZE
  let y := Int.tdiv y TILE_SIZE
  if x < 0 ∨ x > m.TILE_MAP_WIDTH ∨ y < 0 ∨ y > m.TILE_MAP_HEIGHT then
    some EMPTY
  else
    readTile m (x + y * m.TILE_MAP_WIDTH)

/-- Source `TileHeight`: the `switch` has cases `EMPTY` and `BLOCK` only. -/
def TileHeight (_x y tile : ℤ) : ℤ :=
  if tile = EMPTY then y
  else if tile = BLOCK then tileFloor y - 1
  else y

/-- The two nested border loops of `MapInit`, as the value stored at cell `(x, y)`. -/
def borderTile (w h x y : ℤ) : ℤ :=
  if y = 0 ∨ x = 0 ∨ y = h - 1 ∨ x = w - 1 then BLOCK else EMPTY

/-- The assignment `tiles[i] = v`. -/
def writeTile (t : List ℤ) (i v : ℤ) : List ℤ := t.set i.toNat v

/-- One row of the inner loop `for x` of `MapInit`. -/
def fillRow (w h y : ℤ) (t : List ℤ) : List ℤ :=
  (List.range w.toNat).foldl (fun t x => writeTile t ((x : ℤ) + y * w) (borderTile w h x y)) t

/-- Source `MapInit` for dimensions `w × h`: the freshly (re)allocated array is filled by
the border loops and then receives the ten literal block placements. -/
def MapInit (w h : ℤ) : TileMap :=
  let t0 : List ℤ := List.replicate (w * h).toNat 0
  let t1 := (List.range h.toNat).foldl (fun t y => fillRow w h y t) t0
  let t2 := writeTile t1 (3 + 8 * w) BLOCK
  let t3 := writeTile t2 (4 + 8 * w) BLOCK
  let t4 := writeTile t3 (5 + 8 * w) BLOCK
  let t5 := writeTile t4 (8 + 6 * w) BLOCK
  let t6 := writeTile t5 (9 + 6 * w) BLOCK
  let t7 := writeTile t6 (10 + 6 * w) BLOCK
  let t8 := writeTile t7 (13 + 7 * w) BLOCK
  let t9 := writeTile t8 (14 + 7 * w) BLOCK
  let t10 := writeTile t9 (15 + 7 * w) BLOCK
  let t11 := writeTile t10 (1 + 10 * w) BLOCK
  { TILE_MAP_WIDTH := w, TILE_MAP_HEIGHT := h, tiles := t11 }

/-- The map of the demo: `main` sets the dimensions to 20 × 12 before `MapInit`. -/
def demoMap : TileMap := MapInit 20 12

/-! ## Movement functions -/

/-- Conversion `bool → int` in the arithmetic of `GetDirection`. -/
def boolInt (b : Bool) : ℤ := if b then 1 else 0

/-- Source `GetDirection`. -/
def GetDirection (e : Entity) : Entity :=
  { e with direction := ((boolInt e.control.right - boolInt e.control.left : ℤ) : ℚ) }

/-- Source `GroundCheck`: three probes one pixel below the feet, each later probe only
when the flag is still false. Only the field `isGrounded` is written; `g0`, `g1`, `g2` are
its successive values. -/
def GroundCheck (m : TileMap) (e : Entity) : Option Entity :=
  let x := castInt e.position.x
  let y := castInt (e.position.y + 1)
  let g0 := false
  match MapGetTile m (x >>> TILE_SHIFT) (y >>> TILE_SHIFT) with
  | none => none
  | some c =>
    let g1 := if c ≠ EMPTY then decide (y ≥ TileHeight x y c) else g0
    if !g1 then
      let xl := x - Int.tdiv e.width 2
      match MapGetTile m (xl >>> TILE_SHIFT) (y >>> TILE_SHIFT) with
      | none => none
      | some l =>
        let g2 := if l ≠ EMPTY then decide (y ≥ TileHeight xl y l) else g1
        if !g2 then
          let xr := x + Int.tdiv e.width 2 - 1
          match MapGetTile m (xr >>> TILE_SHIFT) (y >>> TILE_SHIFT) with
          | none => none
          | some r =>
            let g3 := if r ≠ EMPTY then decide (y ≥ TileHeight xr y r) else g2
            some { e with isGrounded := g3 }
        else some { e with isGrounded := g2 }
    else some { e with isGrounded := g1 }

/-- Source `MoveCalc`; both `abs` calls convert their float argument to `int`. -/
def MoveCalc (delta : ℚ) (e : Entity) : Entity :=
  if ((|castInt e.direction| : ℤ) : ℚ) > 1 / 100 then
    let vx := e.velocity.x + e.direction * e.acc * delta
    { e with velocity := { e.velocity with x := Clamp vx (-e.maxSpd) e.maxSpd } }
  else
    let hsp := e.velocity.x
    if ((|castInt (0 - hsp)| : ℤ) : ℚ) < e.dcc * delta then
      { e with velocity := { e.velocity with x := 0 } }
    else if hsp > 0 then
      { e with velocity := { e.velocity with x := e.velocity.x - e.dcc * delta } }
    else
      { e with velocity := { e.velocity with x := e.velocity.x + e.dcc * delta } }

/-- Source `Jump`. -/
def Jump (e : Entity) : Entity :=
  { e with velocity := { e.velocity with y := e.jumpImpulse },
           isJumping := true,
           isGrounded := false }

/-- Source `GravityCalc`. -/
def GravityCalc (delta : ℚ) (e : Entity) : Entity :=
  let e1 :=
    if e.isGrounded then
      if e.isJumping then
        { e with isJumping := false, control := { e.control with jump := false } }
      else if !e.isJumping && e.control.jump then
        Jump e
      else e
    else
      if e.isJumping then
        if !e.control.jump then
          let e' := { e with isJumping := false }
          if e'.velocity.y < e'.jumpRelease then
            { e' with velocity := { e'.velocity with y := e'.jumpRelease } }
          else e'
        else e
      else e
  let e2 := { e1 with velocity := { e1.velocity with y := e1.velocity.y + e1.gravity * delta } }
  if e2.velocity.y > -e2.jumpImpulse then
    { e2 with velocity := { e2.velocity with y := -e2.jumpImpulse } }
  else e2

/-- Source `CollisionHorizontalBlocks`. The source picks `side` by `xsp > 0`, `xsp < 0` and
returns in the remaining case `xsp == 0`; here that return is tested first. The three
probes are all evaluated before the test `b || m || t`. -/
def CollisionHorizontalBlocks (m : TileMap) (delta : ℚ) (e : Entity) : Option Entity :=
  let xVel := e.velocity.x * delta + e.hsp
  let xsp := pixelStep xVel
  if xsp = 0 then some e
  else
    let side := if xsp > 0 then Int.tdiv e.width 2 - 1 else Int.tdiv (-e.width) 2
    let x := castInt e.position.x
    let y := castInt e.position.y
    let mid := Int.tdiv (-e.height) 2
    let top := -e.height + 1
    match MapGetTile m ((x + side + xsp) >>> TILE_SHIFT) (y >>> TILE_SHIFT),
          MapGetTile m ((x + side + xsp) >>> TILE_SHIFT) ((y + mid) >>> TILE_SHIFT),
          MapGetTile m ((x + side + xsp) >>> TILE_SHIFT) ((y + top) >>> TILE_SHIFT) with
    | some b, some mt, some t =>
      if b > EMPTY ∨ mt > EMPTY ∨ t > EMPTY then
        let x' :=
          if xsp > 0 then tileFloor (x + side + xsp) - 1 - side
          else tileFloor (x + side + xsp) + TILE_SIZE - side
        some { e with position := { e.position with x := (x' : ℚ) },
                      velocity := { e.velocity with x := 0 },
                      hsp := 0 }
      else some e
    | _, _, _ => none

/-- Source `CollisionVerticalBlocks`, laid out like `CollisionHorizontalBlocks`. -/
def CollisionVerticalBlocks (m : TileMap) (delta : ℚ) (e : Entity) : Option Entity :=
  let yVel := e.velocity.y * delta + e.vsp
  let ysp := pixelStep yVel
  if ysp = 0 then some e
  else
    let side := if ysp > 0 then 0 else -e.height + 1
    let x := castInt e.position.x
    let y := castInt e.position.y
    let xl := Int.tdiv (-e.width) 2
    let xr := Int.tdiv e.width 2 - 1
    match MapGetTile m (x >>> TILE_SHIFT) ((y + side + ysp) >>> TILE_SHIFT),
          MapGetTile m ((x + xl) >>> TILE_SHIFT) ((y + side + ysp) >>> TILE_SHIFT),
          MapGetTile m ((x + xr) >>> TILE_SHIFT) ((y + side + ysp) >>> TILE_SHIFT) with
    | some c, some l, some r =>
      if c > EMPTY ∨ l > EMPTY ∨ r > EMPTY then
        let y' :=
          if ysp > 0 then tileFloor (y + side + ysp) - 1 - side
          else tileFloor (y + side + ysp) + TILE_SIZE - side
        some { e with position := { e.position with y := (y' : ℚ) },
                      velocity := { e.velocity with y := 0 },
                      vsp := 0 }
      else some e
    | _, _, _ => none

/-- Source `CollisionCheck`: horizontal strictly before vertical. -/
def CollisionCheck (m : TileMap) (delta : ℚ) (e : Entity) : Option Entity :=
  (CollisionHorizontalBlocks m delta e).bind (CollisionVerticalBlocks m delta)

/-- The displacement commit of `EntityMoveUpdate` (everything after `CollisionCheck`):
the per-axis raw velocity, the integer step, the new residue, the position update and the
two safety clamps. -/
def DisplacementCommit (m : TileMap) (delta : ℚ) (e : Entity) : Entity :=
  let xVel := e.velocity.x * delta + e.hsp
  let xsp : ℚ := (pixelStep xVel : ℚ)
  let hsp' := e.velocity.x * delta - (wholePart xsp : ℚ)
  let yVel := e.velocity.y * delta + e.vsp
  let ysp : ℚ := (pixelStep yVel : ℚ)
  let vsp' := e.velocity.y * delta - (wholePart ysp : ℚ)
  let px := e.position.x + xsp
  let py := e.position.y + ysp
  { e with hsp := hsp',
           vsp := vsp',
           position :=
             { x := Clamp px 0 ((m.TILE_MAP_WIDTH * TILE_SIZE : ℤ) : ℚ),
               y := Clamp py 0 ((m.TILE_MAP_HEIGHT * TILE_SIZE : ℤ) : ℚ) } }

/-- Source `EntityMoveUpdate`. -/
def EntityMoveUpdate (m : TileMap) (delta : ℚ) (e : Entity) : Option Entity :=
  match GroundCheck m e with
  | none => none
  | some e1 =>
    let e2 := GetDirection e1
    let e3 := MoveCalc delta e2
    let e4 := GravityCalc delta e3
    match CollisionCheck m delta e4 with
    | none => none
    | some e5 => some (DisplacementCommit m delta e5)

/-- Source `PlayerInit` for a map of the given dimensions. -/
def PlayerInit (m : TileMap) : Entity :=
  { width := 8
    height := 16
    position := { x := ((TILE_SIZE * m.TILE_MAP_WIDTH : ℤ) : ℚ) * (1 / 2),
                  y := ((m.TILE_MAP_HEIGHT * TILE_SIZE : ℤ) : ℚ) - 16 - 1 }
    direction := 1
    maxSpd := 0x1900 * 60
    acc := 0x01e4 * 60 * 60
    dcc := 0x01d0 * 60 * 60
    gravity := 0x05d0 * 60 * 60
    jumpImpulse := -0x6900 * 60
    jumpRelease := -0x6900 * 60 * (1 / 5)
    velocity := { x := 0, y := 0 }
    hsp := 0
    vsp := 0
    isGrounded := false
    isJumping := false
    control := { right := false, left := false, up := false, down := false, jump := false } }

/-! ## Frame sequences and events used to state the properties -/

/-- The game loop restricted to the player: `n` consecutive calls of `EntityMoveUpdate`
with the same `delta` and an unchanged input snapshot. -/
def runFrames (m : TileMap) (delta : ℚ) : ℕ → Entity → Option Entity
  | 0, e => some e
  | n + 1, e => (EntityMoveUpdate m delta e).bind (runFrames m delta n)

/-- Consecutive `GravityCalc` frames; before each frame `InputUpdate` stores that frame's
jump flag in the input snapshot. -/
def gravityFrames (delta : ℚ) : List Bool → Entity → Entity
  | [], e => e
  | j :: js, e =>
    gravityFrames delta js (GravityCalc delta { e with control := { e.control with jump := j } })

/-- The horizontal resolver takes its snapping branch: the intended step is not zero, the
three destination probes are read inside the array and at least one is solid. -/
def snapsHorizontal (m : TileMap) (delta : ℚ) (e : Entity) : Bool :=
  let xsp := pixelStep (e.velocity.x * delta + e.hsp)
  let side := if xsp > 0 then Int.tdiv e.width 2 - 1 else Int.tdiv (-e.width) 2
  let x := castInt e.position.x
  let y := castInt e.position.y
  let col := (x + side + xsp) >>> TILE_SHIFT
  xsp ≠ 0 &&
    match MapGetTile m col (y >>> TILE_SHIFT),
          MapGetTile m col ((y + Int.tdiv (-e.height) 2) >>> TILE_SHIFT),
          MapGetTile m col ((y + (-e.height + 1)) >>> TILE_SHIFT) with
    | some b, some mt, some t => decide (b > EMPTY ∨ mt > EMPTY ∨ t > EMPTY)
    | _, _, _ => false

/-- The vertical resolver takes its snapping branch. -/
def snapsVertical (m : TileMap) (delta : ℚ) (e : Entity) : Bool :=
  let ysp := pixelStep (e.velocity.y * delta + e.vsp)
  let side := if ysp > 0 then 0 else -e.height + 1
  let x := castInt e.position.x
  let y := castInt e.position.y
  let row := (y + side + ysp) >>> TILE_SHIFT
  ysp ≠ 0 &&
    match MapGetTile m (x >>> TILE_SHIFT) row,
          MapGetTile m ((x + Int.tdiv (-e.width) 2) >>> TILE_SHIFT) row,
          MapGetTile m ((x + (Int.tdiv e.width 2 - 1)) >>> TILE_SHIFT) row with
    | some c, some l, some r => decide (c > EMPTY ∨ l > EMPTY ∨ r > EMPTY)
    | _, _, _ => false

/-- The demo player as `PlayerInit` leaves it on the demo map: standing on the floor row
at `(160, 175)`. -/
def demoPlayer : Entity := PlayerInit demoMap

/-- The demo player running right at full speed: `right` held, `velocity.x = maxSpd`. -/
def runningPlayer : Entity :=
  { demoPlayer with
    velocity := { x := demoPlayer.maxSpd, y := 0 },
    control := { right := true, left := false, up := false, down := false, jump := false } }

/-- The running player at the start of a later frame, carrying the residue 1904. -/
def carryingPlayer : Entity := { runningPlayer with hsp := 1904 }

/-- The demo player at rest with the jump input held. -/
def jumpingPlayer : Entity :=
  { demoPlayer with
    control := { right := false, left := false, up := false, down := false, jump := true } }

/-- The demo player at full speed with no direction held. -/
def coastingPlayer : Entity :=
  { demoPlayer with direction := 0, velocity := { x := 384000, y := 0 } }

/-- The state machine of `GravityCalc` on `isGrounded`, `isJumping` and the jump input:
everything before the gravity statement. -/
def jumpLogic (e : Entity) : Entity :=
  if e.isGrounded then
    if e.isJumping then
      { e with isJumping := false, control := { e.control with jump := false } }
    else if !e.isJumping && e.control.jump then
      Jump e
    else e
  else
    if e.isJumping then
      if !e.control.jump then
        let e' := { e with isJumping := false }
        if e'.velocity.y < e'.jumpRelease then
          { e' with velocity := { e'.velocity with y := e'.jumpRelease } }
        else e'
      else e
    else e

/-- The last two statements of `GravityCalc`: add gravity, cap at `-jumpImpulse`. -/
def addGravity (delta : ℚ) (e : Entity) : Entity :=
  let e2 := { e with velocity := { e.velocity with y := e.velocity.y + e.gravity * delta } }
  if e2.velocity.y > -e2.jumpImpulse then
    { e2 with velocity := { e2.velocity with y := -e2.jumpImpulse } }
  else e2

/-- The velocity that gravity is added to in an airborne frame: the upward velocity is cut at
`jumpRelease` when a jump is in progress and the jump input is not held. -/
def releasedVelocity (e : Entity) : ℚ :=
  if e.isJumping = true ∧ e.control.jump = false ∧ e.velocity.y < e.jumpRelease then e.jumpRelease
  else e.velocity.y

/-- The value the horizontal resolver assigns to `x` in its snapping branch. -/
def horizontalSnapX (delta : ℚ) (e : Entity) : ℤ :=
  let xsp := pixelStep (e.velocity.x * delta + e.hsp)
  let side := if xsp > 0 then Int.tdiv e.width 2 - 1 else Int.tdiv (-e.width) 2
  let x := castInt e.position.x
  if xsp > 0 then tileFloor (x + side + xsp) - 1 - side
  else tileFloor (x + side + xsp) + TILE_SIZE - side

/-- The value the vertical resolver assigns to `y` in its snapping branch. -/
def verticalSnapY (delta : ℚ) (e : Entity) : ℤ :=
  let ysp := pixelStep (e.velocity.y * delta + e.vsp)
  let side := if ysp > 0 then 0 else -e.height + 1
  let y := castInt e.position.y
  if ysp > 0 then tileFloor (y + side + ysp) - 1 - side
  else tileFloor (y + side + ysp) + TILE_SIZE - side

/-- The state written by the snapping branch of the horizontal resolver. -/
def horizontalSnapped (delta : ℚ) (e : Entity) : Entity :=
  { e with position := { e.position with x := (horizontalSnapX delta e : ℚ) },
           velocity := { e.velocity with x := 0 },
           hsp := 0 }

/-- The state written by the snapping branch of the vertical resolver. -/
def verticalSnapped (delta : ℚ) (e : Entity) : Entity :=
  { e with position := { e.position with y := (verticalSnapY delta e : ℚ) },
           velocity := { e.velocity with y := 0 },
           vsp := 0 }

/-- One foot probe of `GroundCheck`: the tile is not `EMPTY` and its surface height is at
or above the probe (`y >= h`). -/
def groundProbe (x y tile : ℤ) : Bool :=
  decide (tile ≠ EMPTY ∧ TileHeight x y tile ≤ y)

/-- The integer x-step that `CollisionHorizontalBlocks` intends in a frame starting in `e`:
it is computed from `velocity.x` as `GetDirection` and `MoveCalc` leave it. -/
def intendedStepX (delta : ℚ) (e : Entity) : ℤ :=
  pixelStep ((MoveCalc delta (GetDirection e)).velocity.x * delta + e.hsp)

/-- The demo player one pixel short of the right wall, running right at full speed. -/
def wallRunner : Entity :=
  { demoPlayer with
    position := { x := 300, y := 175 },
    velocity := { x := 384000, y := 0 },
    control := { right := true, left := false, up := false, down := false, jump := false } }

/-- The state of `wallRunner` after one frame with `delta = 1/64`. -/
def wallRunnerAfter : Entity :=
  { wallRunner with
    velocity := { x := 0, y := 83700 },
    vsp := 20925 / 16,
    isGrounded := true }

/-- The demo player next to the right wall and on the floor, moving right and down. -/
def fallingRunner : Entity :=
  { demoPlayer with
    position := { x := 300, y := 175 },
    velocity := { x := 384000, y := 384000 } }

/-- The state of `jumpingPlayer` after one frame with `delta = 1/64`. -/
def jumpedPlayer : Entity :=
  { jumpingPlayer with
    position := { x := 160, y := 170 },
    direction := 0,
    velocity := { x := 0, y := -1529100 },
    vsp := -54595 / 16,
    isGrounded := false,
    isJumping := true }

/-- The demo player on the left end of the platform of row 8: only its right foot probe is
over a block. -/
def edgePlayer : Entity := { demoPlayer with position := { x := 46, y := 127 } }

/-- The ten literal block placements of `MapInit`, as `(x, y)` cells. -/
def levelBlocks : List (ℤ × ℤ) :=
  [(3, 8), (4, 8), (5, 8), (8, 6), (9, 6), (10, 6), (13, 7), (14, 7), (15, 7), (1, 10)]

/-- The demo player falling at terminal speed a few pixels above the platform of row 8. -/
def landingPlayer : Entity :=
  { demoPlayer with position := { x := 64, y := 123 }, velocity := { x := 0, y := 1612800 } }

/-- The demo player two pixels short of the right wall, moving right. -/
def rightClipper : Entity :=
  { demoPlayer with position := { x := 299, y := 175 }, velocity := { x := 384000, y := 0 } }

/-- The demo player one pixel short of the left wall, one row above the floor, moving
left. -/
def leftClipper : Entity :=
  { demoPlayer with position := { x := 21, y := 159 }, velocity := { x := -384000, y := 0 } }

/-- Truncation toward zero as the spec words it: round down when non-negative, up when
negative. -/
def truncateTowardZero (q : ℚ) : ℤ := if 0 ≤ q then ⌊q⌋ else ⌈q⌉

/-- The demo player in the air, at rest and not jumping, with the jump input held. -/
def hoveringPlayer : Entity := { jumpingPlayer with position := { x := 160, y := 100 } }

/-- The demo player rising at launch speed with the jump input released. -/
def releasedPlayer : Entity :=
  { demoPlayer with position := { x := 160, y := 100 },
                    velocity := { x := 0, y := -1612800 },
                    isJumping := true }

/-! ## Binary32 rounding and the rounded movement functions -/

/-- Rounding of a rational to the nearest integer, ties to the even integer. -/
def roundNearestEven (r : ℚ) : ℤ :=
  let f := ⌊r⌋
  if r - f < 1 / 2 then f
  else if 1 / 2 < r - f then f + 1
  else if f % 2 = 0 then f else f + 1

/-- The power `2 ^ z` for an integer exponent `z`, computed with natural powers. -/
def twoPow (z : ℤ) : ℚ :=
  if 0 ≤ z then ((2 ^ z.toNat : ℕ) : ℚ) else 1 / ((2 ^ (-z).toNat : ℕ) : ℚ)

/-- Worker of `floorLog2`: the number of halvings of `n` before it drops below `2`; the
first argument bounds the recursion and `n` itself always suffices. -/
def log2Fuel : ℕ → ℕ → ℕ
  | 0, _ => 0
  | fuel + 1, n => if n < 2 then 0 else log2Fuel fuel (n / 2) + 1

/-- The position of the leading bit of a positive natural number:
`2 ^ floorLog2 n ≤ n < 2 ^ (floorLog2 n + 1)`. -/
def floorLog2 (n : ℕ) : ℕ := log2Fuel n n

/-- The binary exponent of a positive rational: `2 ^ binade q ≤ q < 2 ^ (binade q + 1)`. -/
def binade (q : ℚ) : ℤ :=
  if 1 ≤ q then (floorLog2 ⌊q⌋₊ : ℤ) else -((floorLog2 (⌈1 / q⌉₊ - 1) : ℤ) + 1)

/-- The spacing of binary32 values around a positive `q`: 24 significant bits in the
binade of `q`, and the fixed spacing `2 ^ -149` of the subnormal range below `2 ^ -126`. -/
def floatUlp (q : ℚ) : ℚ := twoPow (max (binade q) (-126) - 23)

/-- Binary32 rounding of a positive value: the nearest multiple of the spacing, ties to the
even multiple. -/
def roundFloatAbs (q : ℚ) : ℚ := (roundNearestEven (q / floatUlp q) : ℚ) * floatUlp q

/-- IEEE 754 binary32 round-to-nearest-even of the exact result `q` of a `float` operation;
the rounding is symmetric in the sign. Overflow to infinity beyond the largest finite
value is not modelled. -/
def roundFloat (q : ℚ) : ℚ :=
  if q < 0 then -roundFloatAbs (-q) else if q = 0 then 0 else roundFloatAbs q

/-- Source `MoveCalc` with every `float` operation rounded by `fl`: the products
`direction * acc`, `... * delta` and `dcc * delta`, the sums and differences stored in
`velocity.x`, the difference `0 - hsp`, and the conversion of the `int` result of `abs` to
`float` for the comparison. With `fl = id` this is `MoveCalc`; with `fl = roundFloat` it is
the binary32 arithmetic of the program. -/
def MoveCalcWith (fl : ℚ → ℚ) (delta : ℚ) (e : Entity) : Entity :=
  if ((|castInt e.direction| : ℤ) : ℚ) > 1 / 100 then
    let vx := fl (e.velocity.x + fl (fl (e.direction * e.acc) * delta))
    { e with velocity := { e.velocity with x := Clamp vx (-e.maxSpd) e.maxSpd } }
  else
    let hsp := e.velocity.x
    if fl ((|castInt (fl (0 - hsp))| : ℤ) : ℚ) < fl (e.dcc * delta) then
      { e with velocity := { e.velocity with x := 0 } }
    else if hsp > 0 then
      { e with velocity := { e.velocity with x := fl (e.velocity.x - fl (e.dcc * delta)) } }
    else
      { e with velocity := { e.velocity with x := fl (e.velocity.x + fl (e.dcc * delta)) } }

/-- Source `GravityCalc` with every `float` operation rounded by `fl`: the product
`gravity * delta` and the sum stored in `velocity.y`. With `fl = id` this is `GravityCalc`;
with `fl = roundFloat` it is the binary32 arithmetic of the program. -/
def GravityCalcWith (fl : ℚ → ℚ) (delta : ℚ) (e : Entity) : Entity :=
  let e1 :=
    if e.isGrounded then
      if e.isJumping then
        { e with isJumping := false, control := { e.control with jump := false } }
      else if !e.isJumping && e.control.jump then
        Jump e
      else e
    else
      if e.isJumping then
        if !e.control.jump then
          let e' := { e with isJumping := false }
          if e'.velocity.y < e'.jumpRelease then
            { e' with velocity := { e'.velocity with y := e'.jumpRelease } }
          else e'
        else e
      else e
  let e2 := { e1 with velocity :=
                { e1.velocity with y := fl (e1.velocity.y + fl (e1.gravity * delta)) } }
  if e2.velocity.y > -e2.jumpImpulse then
    { e2 with velocity := { e2.velocity with y := -e2.jumpImpulse } }
  else e2

/-- The last two statements of `GravityCalcWith`. -/
def addGravityWith (fl : ℚ → ℚ) (delta : ℚ) (e : Entity) : Entity :=
  let e2 := { e with velocity :=
                { e.velocity with y := fl (e.velocity.y + fl (e.gravity * delta)) } }
  if e2.velocity.y > -e2.jumpImpulse then
    { e2 with velocity := { e2.velocity with y := -e2.jumpImpulse } }
  else e2

/-- The demo player in the air, rising at launch speed with the jump input held. -/
def risingPlayer : Entity :=
  { demoPlayer with
    position := { x := 160, y := 100 },
    velocity := { x := 0, y := -1612800 },
    isJumping := true,
    control := { right := false, left := false, up := false, down := false, jump := true } }

/-! ## Arithmetic of the C primitives -/

theorem castInt_of_nonneg {q : ℚ} (h : 0 ≤ q) : castInt q = ⌊q⌋ := by
  unfold castInt
  rw [Rat.floor_def, Int.tdiv_eq_ediv (Rat.num_nonneg.mpr h) (Int.ofNat_nonneg _)]

theorem castInt_neg (q : ℚ) : castInt (-q) = -castInt q := by
  unfold castInt
  rw [Rat.neg_num, Rat.neg_den, Int.neg_tdiv]

theorem castInt_zero : castInt 0 = 0 := by
  rw [castInt_of_nonneg le_rfl]; simp

theorem abs_castInt (q : ℚ) : |castInt q| = ⌊|q|⌋ := by
  rcases le_total 0 q with h | h
  · rw [abs_of_nonneg h, castInt_of_nonneg h, abs_of_nonneg (Int.floor_nonneg.mpr h)]
  · have h' : 0 ≤ -q := neg_nonneg.mpr h
    have e : castInt q = -⌊-q⌋ := by
      have := castInt_neg (-q)
      rw [neg_neg] at this
      rw [this, castInt_of_nonneg h']
    rw [abs_of_nonpos h, e, abs_neg, abs_of_nonneg (Int.floor_nonneg.mpr h')]

theorem abs_castInt_le (q : ℚ) : ((|castInt q| : ℤ) : ℚ) ≤ |q| := by
  rw [abs_castInt]; exact Int.floor_le _

theorem sign_zero : sign 0 = 0 := by
  unfold sign; norm_num

theorem pixelStep_zero : pixelStep 0 = 0 := by
  unfold pixelStep; rw [sign_zero]; simp

theorem nat_ldiff_tile (n : ℕ) : Nat.ldiff n 15 = 16 * (n / 16) := by
  apply Nat.eq_of_testBit_eq
  intro i
  have h15 : (15 : ℕ) = 2 ^ 4 - 1 := by norm_num
  have h16 : (16 : ℕ) = 2 ^ 4 := by norm_num
  rw [Nat.testBit_ldiff, h15, Nat.testBit_two_pow_sub_one, h16, Nat.testBit_mul_pow_two,
    ← Nat.shiftRight_eq_div_pow, Nat.testBit_shiftRight]
  by_cases hi : i < 4
  · simp [hi, Nat.not_le.mpr hi]
  · have : 4 ≤ i := Nat.le_of_not_lt hi
    simp [hi, this]

theorem nat_lor_tile (n : ℕ) : n ||| 15 = 16 * (n / 16) + 15 := by
  apply Nat.eq_of_testBit_eq
  intro i
  have h15 : (15 : ℕ) = 2 ^ 4 - 1 := by norm_num
  have h16 : (16 : ℕ) = 2 ^ 4 := by norm_num
  have hlt : (2 ^ 4 - 1 : ℕ) < 2 ^ 4 := by norm_num
  rw [Nat.testBit_lor, h15, h16, Nat.testBit_mul_pow_two_add _ hlt, Nat.testBit_two_pow_sub_one,
    ← Nat.shiftRight_eq_div_pow, Nat.testBit_shiftRight]
  by_cases hi : i < 4
  · simp [hi]
  · have : 4 ≤ i := Nat.le_of_not_lt hi
    simp [hi, this]

/-- The arithmetic `tileFloor` is the bitwise expression `v & ~TILE_ROUND` of the source. -/
theorem tileFloor_eq_land (v : ℤ) : tileFloor v = Int.land v (Int.lnot TILE_ROUND) := by
  unfold tileFloor TILE_ROUND
  cases v with
  | ofNat n =>
    show Int.ofNat n - Int.ofNat n % (15 + 1) = ((Nat.ldiff n 15 : ℕ) : ℤ)
    rw [nat_ldiff_tile]; push_cast
    have : Int.ofNat n = (n : ℤ) := rfl
    omega
  | negSucc n =>
    show Int.negSucc n - Int.negSucc n % (15 + 1) = Int.negSucc (n ||| 15)
    rw [nat_lor_tile, Int.negSucc_eq, Int.negSucc_eq]
    push_cast
    omega

theorem tileFloor_eq (v : ℤ) : tileFloor v = 16 * (v / 16) := by
  unfold tileFloor TILE_ROUND; omega

theorem tileFloor_le (v : ℤ) : tileFloor v ≤ v := by
  rw [tileFloor_eq]; omega

theorem shiftRight_tile (v : ℤ) : v >>> TILE_SHIFT = v / 16 := by
  unfold TILE_SHIFT
  rw [Int.shiftRight_eq_div_pow]; norm_num

/-! ## The demo map -/

/-- The array that `MapInit` builds for the 20 × 12 demo, row by row. -/
theorem demoMap_eq :
    demoMap =
    { TILE_MAP_WIDTH := 20, TILE_MAP_HEIGHT := 12, tiles := [
      0, 0, 0, 0, 0, 0, 0, 0, 0, 0, 0, 0, 0, 0, 0, 0, 0, 0, 0, 0,
      0, -1, -1, -1, -1, -1, -1, -1, -1, -1, -1, -1, -1, -1, -1, -1, -1, -1, -1, 0,
      0, -1, -1, -1, -1, -1, -1, -1, -1, -1, -1, -1, -1, -1, -1, -1, -1, -1, -1, 0,
      0, -1, -1, -1, -1, -1, -1, -1, -1, -1, -1, -1, -1, -1, -1, -1, -1, -1, -1, 0,
      0, -1, -1, -1, -1, -1, -1, -1, -1, -1, -1, -1, -1, -1, -1, -1, -1, -1, -1, 0,
      0, -1, -1, -1, -1, -1, -1, -1, -1, -1, -1, -1, -1, -1, -1, -1, -1, -1, -1, 0,
      0, -1, -1, -1, -1, -1, -1, -1, 0, 0, 0, -1, -1, -1, -1, -1, -1, -1, -1, 0,
      0, -1, -1, -1, -1, -1, -1, -1, -1, -1, -1, -1, -1, 0, 0, 0, -1, -1, -1, 0,
      0, -1, -1, 0, 0, 0, -1, -1, -1, -1, -1, -1, -1, -1, -1, -1, -1, -1, -1, 0,
      0, -1, -1, -1, -1, -1, -1, -1, -1, -1, -1, -1, -1, -1, -1, -1, -1, -1, -1, 0,
      0, 0, -1, -1, -1, -1, -1, -1, -1, -1, -1, -1, -1, -1, -1, -1, -1, -1, -1, 0,
      0, 0, 0, 0, 0, 0, 0, 0, 0, 0, 0, 0, 0, 0, 0, 0, 0, 0, 0, 0] } := by
  decide!

/-! ## Tile lookup at the far edge -/

/-- C1: `MapGetTile` is claimed to return `EMPTY` for every `x ≥ width`. On the demo map
the query at column `x = 20 = width`, row `0`, passes the guard `x > TILE_MAP_WIDTH`, reads
`tiles[20]` (the cell `(0, 1)` of the border) and returns `BLOCK`. -/
theorem MapGetTile_at_width_returns_block :
    demoMap.TILE_MAP_WIDTH = 20 ∧ demoMap.TILE_MAP_HEIGHT = 12 ∧
    demoMap.tiles.length = 20 * 12 ∧
    MapGetTile demoMap 20 0 = some BLOCK ∧ BLOCK ≠ EMPTY := by
  rw [demoMap_eq]; decide!

/-- C2: tile lookup is claimed never to index outside the array. On the demo map, whose
array has exactly `20 * 12 = 240` entries, the query at row `y = 12 = height` passes the
guard `y > TILE_MAP_HEIGHT` and reads index `0 + 12 * 20 = 240`, one past the last entry;
`MapGetTileWorld` does the same for the pixel `(0, 192)`. -/
theorem MapGetTile_at_height_reads_past_array :
    demoMap.tiles.length = 240 ∧
    (0 : ℤ) + 12 * demoMap.TILE_MAP_WIDTH = 240 ∧
    MapGetTile demoMap 0 12 = none ∧
    MapGetTileWorld demoMap 0 192 = none := by
  rw [demoMap_eq]; decide!

/-! ## The residue of the displacement commit -/

/-- C3: residue conservation is claimed for every constant velocity. The demo player
running right at the constant velocity `maxSpd = 384000` with `delta = 1/64` and zero
initial residue meets no obstacle for 20 frames and is moved 20 pixels, one per frame,
while the continuous displacement `384000 * 20 * (1/64) / 4096` exceeds 29 pixels. The
displacement commit alone, iterated 20 times on the same state, gives the same 20 pixels. -/
theorem runFrames_drifts_from_continuous_motion :
    runningPlayer.hsp = 0 ∧ runningPlayer.velocity.x = 384000 ∧
    (runFrames demoMap (1 / 64) 20 runningPlayer).map (fun e => (e.velocity.x, e.position.x))
      = some (384000, runningPlayer.position.x + 20) ∧
    ((DisplacementCommit demoMap (1 / 64))^[20] runningPlayer).position.x
      = runningPlayer.position.x + 20 ∧
    (29 : ℚ) < 384000 * 20 * (1 / 64) / 4096 := by
  rw [demoMap_eq]; decide!

/-- C4: the new residue is claimed to be the raw velocity minus the whole pixels stepped.
With `velocity.x * delta = 6000` and carried residue `1904` the raw velocity is `7904`, the
step is one pixel, and the commit stores `6000 - 4096 = 1904`, not `7904 - 4096 = 3808`. -/
theorem DisplacementCommit_drops_carried_residue :
    carryingPlayer.velocity.x * (1 / 64) + carryingPlayer.hsp = 7904 ∧
    pixelStep (carryingPlayer.velocity.x * (1 / 64) + carryingPlayer.hsp) = 1 ∧
    (DisplacementCommit demoMap (1 / 64) carryingPlayer).hsp = 1904 ∧
    (DisplacementCommit demoMap (1 / 64) carryingPlayer).position.x
      = carryingPlayer.position.x + 1 ∧
    (7904 : ℚ) - 4096 * 1 = 3808 := by
  rw [demoMap_eq]; decide!

/-! ## Deceleration -/

theorem MoveCalc_direction (delta : ℚ) (e : Entity) :
    (MoveCalc delta e).direction = e.direction ∧ (MoveCalc delta e).dcc = e.dcc := by
  unfold MoveCalc
  dsimp only
  split_ifs <;> exact ⟨rfl, rfl⟩

/-- One decelerating frame either snaps `velocity.x` to zero or removes one full
deceleration step from its magnitude. -/
theorem MoveCalc_decel_step (delta : ℚ) (e : Entity) (hdir : e.direction = 0) :
    (MoveCalc delta e).velocity.x = 0 ∨
      |(MoveCalc delta e).velocity.x| = |e.velocity.x| - e.dcc * delta := by
  have hcast : ¬ ((|castInt e.direction| : ℤ) : ℚ) > 1 / 100 := by
    rw [hdir, castInt_zero]; norm_num
  unfold MoveCalc
  rw [if_neg hcast]
  dsimp only
  by_cases h1 : ((|castInt (0 - e.velocity.x)| : ℤ) : ℚ) < e.dcc * delta
  · left; rw [if_pos h1]
  · right
    have hle : e.dcc * delta ≤ |e.velocity.x| := by
      have hc := abs_castInt_le (0 - e.velocity.x)
      have e2 : |0 - e.velocity.x| = |e.velocity.x| := by rw [zero_sub, abs_neg]
      rw [e2] at hc
      exact le_trans (not_lt.mp h1) hc
    rw [if_neg h1]
    by_cases h2 : e.velocity.x > 0
    · rw [if_pos h2]
      show |e.velocity.x - e.dcc * delta| = |e.velocity.x| - e.dcc * delta
      rw [abs_of_pos h2] at hle ⊢
      rw [abs_of_nonneg (by linarith)]
    · rw [if_neg h2]
      show |e.velocity.x + e.dcc * delta| = |e.velocity.x| - e.dcc * delta
      have h3 : e.velocity.x ≤ 0 := not_lt.mp h2
      rw [abs_of_nonpos h3] at hle ⊢
      rw [abs_of_nonpos (by linarith)]
      ring

theorem MoveCalc_decel_zero (delta : ℚ) (e : Entity) (hdir : e.direction = 0)
    (hd : 0 < e.dcc * delta) (hv : e.velocity.x = 0) : (MoveCalc delta e).velocity.x = 0 := by
  rcases MoveCalc_decel_step delta e hdir with h | h
  · exact h
  · rw [hv, abs_zero, zero_sub] at h
    have : 0 ≤ |(MoveCalc delta e).velocity.x| := abs_nonneg _
    linarith

theorem MoveCalc_iterate_direction (delta : ℚ) (n : ℕ) (e : Entity) :
    ((MoveCalc delta)^[n] e).direction = e.direction ∧ ((MoveCalc delta)^[n] e).dcc = e.dcc := by
  induction n generalizing e with
  | zero => exact ⟨rfl, rfl⟩
  | succ n ih =>
    rw [Function.iterate_succ_apply]
    obtain ⟨h1, h2⟩ := ih (MoveCalc delta e)
    obtain ⟨h3, h4⟩ := MoveCalc_direction delta e
    exact ⟨h1.trans h3, h2.trans h4⟩

theorem MoveCalc_iterate_zero (delta : ℚ) (n : ℕ) (e : Entity) (hdir : e.direction = 0)
    (hd : 0 < e.dcc * delta) (hv : e.velocity.x = 0) :
    ((MoveCalc delta)^[n] e).velocity.x = 0 := by
  induction n generalizing e with
  | zero => exact hv
  | succ n ih =>
    rw [Function.iterate_succ_apply]
    obtain ⟨h3, h4⟩ := MoveCalc_direction delta e
    exact ih (MoveCalc delta e) (h3.trans hdir) (by rw [h4]; exact hd)
      (MoveCalc_decel_zero delta e hdir hd hv)

theorem MoveCalc_iterate_bound (delta : ℚ) (n : ℕ) (e : Entity) (hdir : e.direction = 0)
    (hd : 0 < e.dcc * delta) (hv : |e.velocity.x| ≤ n * (e.dcc * delta)) :
    ((MoveCalc delta)^[n + 1] e).velocity.x = 0 := by
  induction n generalizing e with
  | zero =>
    have : e.velocity.x = 0 := by
      have h0 : |e.velocity.x| ≤ 0 := by simpa using hv
      exact abs_eq_zero.mp (le_antisymm h0 (abs_nonneg _))
    exact MoveCalc_iterate_zero delta 1 e hdir hd this
  | succ n ih =>
    rw [Function.iterate_succ_apply]
    obtain ⟨h3, h4⟩ := MoveCalc_direction delta e
    apply ih (MoveCalc delta e) (h3.trans hdir) (by rw [h4]; exact hd)
    rw [h4]
    rcases MoveCalc_decel_step delta e hdir with h | h
    · rw [h, abs_zero]; positivity
    · rw [h]; push_cast at hv; linarith

/-- Deceleration in exact arithmetic (`MoveCalcWith id`): with `direction = 0` and a
positive deceleration step `dcc * delta`, iterating `MoveCalc` brings `velocity.x` to
exactly `0` after finitely many frames, and it is exactly `0` on every later frame. The
binary32 counterpart is `MoveCalc_binary32_deceleration_snap`. -/
theorem MoveCalc_deceleration_snap (delta : ℚ) (e : Entity) (hdir : e.direction = 0)
    (hd : 0 < e.dcc * delta) :
    ∃ n : ℕ, ∀ k : ℕ, n ≤ k → ((MoveCalc delta)^[k] e).velocity.x = 0 := by
  obtain ⟨n, hn⟩ := exists_nat_ge (|e.velocity.x| / (e.dcc * delta))
  refine ⟨n + 1, fun k hk => ?_⟩
  obtain ⟨j, rfl⟩ := Nat.exists_eq_add_of_le hk
  rw [Nat.add_comm, Function.iterate_add_apply]
  obtain ⟨h1, h2⟩ := MoveCalc_iterate_direction delta (n + 1) e
  apply MoveCalc_iterate_zero delta j _ (h1.trans hdir) (by rw [h2]; exact hd)
  apply MoveCalc_iterate_bound delta n e hdir hd
  rwa [div_le_iff₀ hd] at hn

/-- An instance of the exact-arithmetic statement: the demo player released at full speed,
`delta = 1/64`. -/
theorem MoveCalc_deceleration_snap_witness :
    ∃ n : ℕ, ∀ k : ℕ, n ≤ k →
      ((MoveCalc (1 / 64))^[k] coastingPlayer).velocity.x = 0 :=
  MoveCalc_deceleration_snap (1 / 64) coastingPlayer (by decide!) (by decide!)

/-! ## Gravity and jump -/

theorem GravityCalc_eq (delta : ℚ) (e : Entity) :
    GravityCalc delta e = addGravity delta (jumpLogic e) := rfl

theorem addGravity_fields (delta : ℚ) (e : Entity) :
    (addGravity delta e).isGrounded = e.isGrounded ∧
    (addGravity delta e).isJumping = e.isJumping ∧
    (addGravity delta e).jumpImpulse = e.jumpImpulse ∧
    (addGravity delta e).gravity = e.gravity ∧
    (addGravity delta e).control = e.control ∧
    (addGravity delta e).velocity.y = min (e.velocity.y + e.gravity * delta) (-e.jumpImpulse) := by
  unfold addGravity
  dsimp only
  split_ifs with h
  · exact ⟨rfl, rfl, rfl, rfl, rfl, (min_eq_right (le_of_lt h)).symm⟩
  · exact ⟨rfl, rfl, rfl, rfl, rfl, (min_eq_left (not_lt.mp h)).symm⟩

theorem jumpLogic_airborne (e : Entity) (hair : e.isGrounded = false) :
    (jumpLogic e).isGrounded = false ∧
    (jumpLogic e).jumpImpulse = e.jumpImpulse ∧
    (jumpLogic e).gravity = e.gravity ∧
    (jumpLogic e).velocity.y = releasedVelocity e := by
  unfold jumpLogic releasedVelocity
  rw [hair, if_neg Bool.false_ne_true]
  by_cases hj : e.isJumping = true
  · rw [if_pos hj]
    by_cases hc : e.control.jump = true
    · have hn : ¬ ((!e.control.jump) = true) := by rw [hc]; decide
      rw [if_neg hn, if_neg (by rintro ⟨_, h, _⟩; rw [hc] at h; cases h)]
      exact ⟨hair, rfl, rfl, rfl⟩
    · have hc' : e.control.jump = false := by simpa using hc
      have hp : (!e.control.jump) = true := by rw [hc']; rfl
      rw [if_pos hp]
      dsimp only
      by_cases hv : e.velocity.y < e.jumpRelease
      · rw [if_pos hv, if_pos ⟨hj, hc', hv⟩]; exact ⟨rfl, rfl, rfl, rfl⟩
      · rw [if_neg hv, if_neg (fun h => hv h.2.2)]; exact ⟨rfl, rfl, rfl, rfl⟩
  · rw [if_neg hj, if_neg (fun h => hj h.1)]; exact ⟨hair, rfl, rfl, rfl⟩

theorem GravityCalc_airborne (delta : ℚ) (e : Entity) (hair : e.isGrounded = false) :
    (GravityCalc delta e).isGrounded = false ∧
    (GravityCalc delta e).jumpImpulse = e.jumpImpulse ∧
    (GravityCalc delta e).gravity = e.gravity ∧
    (GravityCalc delta e).velocity.y
      = min (releasedVelocity e + e.gravity * delta) (-e.jumpImpulse) := by
  obtain ⟨h1, h2, h3, h4⟩ := jumpLogic_airborne e hair
  obtain ⟨a, _, c, d, _, f⟩ := addGravity_fields delta (jumpLogic e)
  rw [GravityCalc_eq]
  exact ⟨a.trans h1, c.trans h2, d.trans h3, by rw [f, h4, h3, h2]⟩

theorem gravityFrames_airborne (delta : ℚ) (js : List Bool) (e : Entity)
    (hair : e.isGrounded = false) (hj : e.jumpImpulse ≤ 0) (hg : 0 ≤ e.gravity * delta)
    (hlo : e.jumpImpulse ≤ e.velocity.y) (hhi : e.velocity.y ≤ -e.jumpImpulse) :
    (gravityFrames delta js e).isGrounded = false ∧
    (gravityFrames delta js e).jumpImpulse = e.jumpImpulse ∧
    e.jumpImpulse ≤ (gravityFrames delta js e).velocity.y ∧
    (gravityFrames delta js e).velocity.y ≤ -e.jumpImpulse := by
  induction js generalizing e with
  | nil => exact ⟨hair, rfl, hlo, hhi⟩
  | cons j js ih =>
    unfold gravityFrames
    obtain ⟨h1, h2, h3, h4⟩ :=
      GravityCalc_airborne delta { e with control := { e.control with jump := j } } hair
    have hrel : e.jumpImpulse ≤
        releasedVelocity { e with control := { e.control with jump := j } } := by
      unfold releasedVelocity
      split_ifs with h
      · exact le_trans hlo (le_of_lt h.2.2)
      · exact hlo
    have hlo' : e.jumpImpulse ≤
        (GravityCalc delta { e with control := { e.control with jump := j } }).velocity.y := by
      rw [h4]
      exact le_min (by change _ ≤ _ + e.gravity * delta; linarith)
        (by change _ ≤ -e.jumpImpulse; linarith)
    have hhi' : (GravityCalc delta { e with control := { e.control with jump := j } }).velocity.y
        ≤ -e.jumpImpulse := by
      rw [h4]; exact min_le_right _ _
    have h2' : (GravityCalc delta
        { e with control := { e.control with jump := j } }).jumpImpulse = e.jumpImpulse := h2
    have h3' : (GravityCalc delta
        { e with control := { e.control with jump := j } }).gravity = e.gravity := h3
    obtain ⟨a, b, c, d⟩ := ih _ h1 (by rw [h2']; exact hj) (by rw [h3']; exact hg)
      (by rw [h2']; exact hlo') (by rw [h2']; exact hhi')
    exact ⟨a, b.trans h2', by rw [h2'] at c; exact c, by rw [h2'] at d; exact d⟩

/-- C6: with `jumpImpulse ≤ 0` and `gravity * delta ≥ 0`, starting airborne with
`|velocity.y| ≤ -jumpImpulse`, after any number of consecutive airborne `GravityCalc`
frames, whatever the jump input of each frame, `velocity.y` stays between `jumpImpulse`
and `-jumpImpulse`. The bounds on `jumpRelease` are not needed. -/
theorem GravityCalc_terminal_velocity (delta : ℚ) (js : List Bool) (e : Entity)
    (hair : e.isGrounded = false) (hj : e.jumpImpulse ≤ 0) (hg : 0 ≤ e.gravity * delta)
    (hv : |e.velocity.y| ≤ -e.jumpImpulse) :
    e.jumpImpulse ≤ (gravityFrames delta js e).velocity.y ∧
    (gravityFrames delta js e).velocity.y ≤ -e.jumpImpulse := by
  obtain ⟨h1, h2⟩ := abs_le.mp hv
  obtain ⟨_, _, c, d⟩ := gravityFrames_airborne delta js e hair hj hg (by linarith) h2
  exact ⟨c, d⟩

/-- Witness for C6: the demo player dropped from rest, three frames with the jump input
released, held, released. -/
theorem GravityCalc_terminal_velocity_witness :
    demoPlayer.jumpImpulse ≤
      (gravityFrames (1 / 64) [false, true, false] demoPlayer).velocity.y ∧
    (gravityFrames (1 / 64) [false, true, false] demoPlayer).velocity.y
      ≤ -demoPlayer.jumpImpulse :=
  GravityCalc_terminal_velocity (1 / 64) [false, true, false] demoPlayer
    (by decide!) (by decide!) (by decide!) (by decide!)

/-! ## Collision resolvers -/

theorem CollisionHorizontalBlocks_cases (m : TileMap) (delta : ℚ) (e e' : Entity)
    (h : CollisionHorizontalBlocks m delta e = some e') :
    (snapsHorizontal m delta e = true ∧ e' = horizontalSnapped delta e) ∨
    (snapsHorizontal m delta e = false ∧ e' = e) := by
  unfold CollisionHorizontalBlocks at h
  unfold snapsHorizontal horizontalSnapped horizontalSnapX
  dsimp only at h ⊢
  by_cases h0 : pixelStep (e.velocity.x * delta + e.hsp) = 0
  · rw [if_pos h0] at h
    right
    exact ⟨by simp [h0], (Option.some.inj h).symm⟩
  · rw [if_neg h0] at h
    split at h
    · rename_i b mt t hb hmt ht
      by_cases hit : b > EMPTY ∨ mt > EMPTY ∨ t > EMPTY
      · rw [if_pos hit] at h
        left
        exact ⟨by simp [h0, hit], (Option.some.inj h).symm⟩
      · rw [if_neg hit] at h
        right
        exact ⟨by simp [h0, hit], (Option.some.inj h).symm⟩
    · cases h

theorem CollisionVerticalBlocks_cases (m : TileMap) (delta : ℚ) (e e' : Entity)
    (h : CollisionVerticalBlocks m delta e = some e') :
    (snapsVertical m delta e = true ∧ e' = verticalSnapped delta e) ∨
    (snapsVertical m delta e = false ∧ e' = e) := by
  unfold CollisionVerticalBlocks at h
  unfold snapsVertical verticalSnapped verticalSnapY
  dsimp only at h ⊢
  by_cases h0 : pixelStep (e.velocity.y * delta + e.vsp) = 0
  · rw [if_pos h0] at h
    right
    exact ⟨by simp [h0], (Option.some.inj h).symm⟩
  · rw [if_neg h0] at h
    split at h
    · rename_i c l r hc hl hr
      by_cases hit : c > EMPTY ∨ l > EMPTY ∨ r > EMPTY
      · rw [if_pos hit] at h
        left
        exact ⟨by simp [h0, hit], (Option.some.inj h).symm⟩
      · rw [if_neg hit] at h
        right
        exact ⟨by simp [h0, hit], (Option.some.inj h).symm⟩
    · cases h

theorem CollisionHorizontalBlocks_of_snaps (m : TileMap) (delta : ℚ) (e : Entity)
    (h : snapsHorizontal m delta e = true) :
    CollisionHorizontalBlocks m delta e = some (horizontalSnapped delta e) := by
  cases hc : CollisionHorizontalBlocks m delta e with
  | none =>
    exfalso
    unfold CollisionHorizontalBlocks at hc
    unfold snapsHorizontal at h
    dsimp only at h hc
    by_cases h0 : pixelStep (e.velocity.x * delta + e.hsp) = 0
    · rw [if_pos h0] at hc; cases hc
    · rw [if_neg h0] at hc
      split at hc
      · split_ifs at hc
      · rename_i hnone
        split at h
        · rename_i b mt t hb hmt ht
          exact hnone b mt t hb hmt ht
        · simp at h
  | some e' =>
    rcases CollisionHorizontalBlocks_cases m delta e e' hc with ⟨_, h2⟩ | ⟨h1, _⟩
    · rw [h2]
    · rw [h] at h1; cases h1

theorem CollisionVerticalBlocks_of_snaps (m : TileMap) (delta : ℚ) (e : Entity)
    (h : snapsVertical m delta e = true) :
    CollisionVerticalBlocks m delta e = some (verticalSnapped delta e) := by
  cases hc : CollisionVerticalBlocks m delta e with
  | none =>
    exfalso
    unfold CollisionVerticalBlocks at hc
    unfold snapsVertical at h
    dsimp only at h hc
    by_cases h0 : pixelStep (e.velocity.y * delta + e.vsp) = 0
    · rw [if_pos h0] at hc; cases hc
    · rw [if_neg h0] at hc
      split at hc
      · split_ifs at hc
      · rename_i hnone
        split at h
        · rename_i c l r hcc hl hr
          exact hnone c l r hcc hl hr
        · simp at h
  | some e' =>
    rcases CollisionVerticalBlocks_cases m delta e e' hc with ⟨_, h2⟩ | ⟨h1, _⟩
    · rw [h2]
    · rw [h] at h1; cases h1

theorem CollisionHorizontalBlocks_rest (m : TileMap) (delta : ℚ) (e : Entity)
    (hv : e.velocity.x = 0) (hr : e.hsp = 0) : CollisionHorizontalBlocks m delta e = some e := by
  unfold CollisionHorizontalBlocks
  dsimp only
  rw [hv, hr, zero_mul, add_zero, pixelStep_zero, if_pos rfl]

theorem CollisionVerticalBlocks_rest (m : TileMap) (delta : ℚ) (e : Entity)
    (hv : e.velocity.y = 0) (hr : e.vsp = 0) : CollisionVerticalBlocks m delta e = some e := by
  unfold CollisionVerticalBlocks
  dsimp only
  rw [hv, hr, zero_mul, add_zero, pixelStep_zero, if_pos rfl]

/-- C8: if `CollisionHorizontalBlocks` (respectively `CollisionVerticalBlocks`) takes its
snapping branch, it returns a state with zero velocity and zero residue on that axis and
the snapped coordinate, and running the same resolver again on that state returns it
unchanged. -/
theorem collision_snap_idempotent (m : TileMap) (delta : ℚ) (e : Entity) :
    (snapsHorizontal m delta e = true →
      ∃ e', CollisionHorizontalBlocks m delta e = some e' ∧
        e'.position.x = (horizontalSnapX delta e : ℚ) ∧ e'.velocity.x = 0 ∧ e'.hsp = 0 ∧
        CollisionHorizontalBlocks m delta e' = some e') ∧
    (snapsVertical m delta e = true →
      ∃ e', CollisionVerticalBlocks m delta e = some e' ∧
        e'.position.y = (verticalSnapY delta e : ℚ) ∧ e'.velocity.y = 0 ∧ e'.vsp = 0 ∧
        CollisionVerticalBlocks m delta e' = some e') := by
  constructor
  · intro h
    exact ⟨horizontalSnapped delta e, CollisionHorizontalBlocks_of_snaps m delta e h, rfl, rfl,
      rfl, CollisionHorizontalBlocks_rest m delta _ rfl rfl⟩
  · intro h
    exact ⟨verticalSnapped delta e, CollisionVerticalBlocks_of_snaps m delta e h, rfl, rfl,
      rfl, CollisionVerticalBlocks_rest m delta _ rfl rfl⟩

/-! ## Ground probes -/

theorem GroundCheck_eq (m : TileMap) (e : Entity) :
    GroundCheck m e =
      match MapGetTile m (castInt e.position.x >>> TILE_SHIFT)
          (castInt (e.position.y + 1) >>> TILE_SHIFT) with
      | none => none
      | some c =>
        if groundProbe (castInt e.position.x) (castInt (e.position.y + 1)) c then
          some { e with isGrounded := true }
        else
          match MapGetTile m ((castInt e.position.x - Int.tdiv e.width 2) >>> TILE_SHIFT)
              (castInt (e.position.y + 1) >>> TILE_SHIFT) with
          | none => none
          | some l =>
            if groundProbe (castInt e.position.x - Int.tdiv e.width 2)
                (castInt (e.position.y + 1)) l then
              some { e with isGrounded := true }
            else
              match MapGetTile m ((castInt e.position.x + Int.tdiv e.width 2 - 1) >>> TILE_SHIFT)
                  (castInt (e.position.y + 1) >>> TILE_SHIFT) with
              | none => none
              | some r =>
                some { e with isGrounded :=
                                groundProbe (castInt e.position.x + Int.tdiv e.width 2 - 1)
                                  (castInt (e.position.y + 1)) r } := by
  unfold GroundCheck groundProbe
  dsimp only
  cases MapGetTile m (castInt e.position.x >>> TILE_SHIFT)
      (castInt (e.position.y + 1) >>> TILE_SHIFT) with
  | none => rfl
  | some c =>
    dsimp only
    by_cases hc : c ≠ EMPTY <;>
    by_cases hh : TileHeight (castInt e.position.x) (castInt (e.position.y + 1)) c
        ≤ castInt (e.position.y + 1)
    all_goals
      cases MapGetTile m ((castInt e.position.x - Int.tdiv e.width 2) >>> TILE_SHIFT)
        (castInt (e.position.y + 1) >>> TILE_SHIFT) with
      | none => simp [hc, hh]
      | some l =>
        by_cases hl : l ≠ EMPTY <;>
        by_cases hhl : TileHeight (castInt e.position.x - Int.tdiv e.width 2)
            (castInt (e.position.y + 1)) l ≤ castInt (e.position.y + 1)
        all_goals
          cases MapGetTile m ((castInt e.position.x + Int.tdiv e.width 2 - 1) >>> TILE_SHIFT)
            (castInt (e.position.y + 1) >>> TILE_SHIFT) with
          | none => simp [hc, hh, hl, hhl]
          | some r =>
            by_cases hr : r ≠ EMPTY <;> simp [hc, hh, hl, hhl, hr]

theorem GroundCheck_cases (m : TileMap) (e g : Entity) (h : GroundCheck m e = some g) :
    ∃ b : Bool, g = { e with isGrounded := b } := by
  rw [GroundCheck_eq] at h
  split at h
  · cases h
  · split at h
    · exact ⟨_, (Option.some.inj h).symm⟩
    · split at h
      · cases h
      · split at h
        · exact ⟨_, (Option.some.inj h).symm⟩
        · split at h
          · cases h
          · exact ⟨_, (Option.some.inj h).symm⟩

theorem TileHeight_block_le (x y : ℤ) : TileHeight x y BLOCK ≤ y := by
  unfold TileHeight
  rw [if_neg (by decide), if_pos rfl]
  have := tileFloor_le y
  omega

/-- Standing on a `BLOCK`: when the tile under the centre of the feet is `BLOCK`, the
first probe of `GroundCheck` already reports grounded. -/
theorem GroundCheck_center_block (m : TileMap) (e : Entity)
    (h : MapGetTile m (castInt e.position.x >>> TILE_SHIFT)
      (castInt (e.position.y + 1) >>> TILE_SHIFT) = some BLOCK) :
    GroundCheck m e = some { e with isGrounded := true } := by
  rw [GroundCheck_eq, h]
  have hp : groundProbe (castInt e.position.x) (castInt (e.position.y + 1)) BLOCK = true := by
    unfold groundProbe
    exact decide_eq_true ⟨by decide, TileHeight_block_le _ _⟩
  dsimp only
  rw [if_pos hp]

/-- C10: when the three foot probes (centre, left edge `x - width/2`, right edge
`x + width/2 - 1`, all at `y = (int)(position.y + 1)`) are read inside the array,
`GroundCheck` returns the entity with `isGrounded` set to true exactly when at least one
probed tile is not `EMPTY` and has `TileHeight(probe) ≤ y`, and to false otherwise; no
other field changes. -/
theorem GroundCheck_three_probes (m : TileMap) (e : Entity) (c l r : ℤ)
    (hc : MapGetTile m (castInt e.position.x >>> TILE_SHIFT)
      (castInt (e.position.y + 1) >>> TILE_SHIFT) = some c)
    (hl : MapGetTile m ((castInt e.position.x - Int.tdiv e.width 2) >>> TILE_SHIFT)
      (castInt (e.position.y + 1) >>> TILE_SHIFT) = some l)
    (hr : MapGetTile m ((castInt e.position.x + Int.tdiv e.width 2 - 1) >>> TILE_SHIFT)
      (castInt (e.position.y + 1) >>> TILE_SHIFT) = some r) :
    GroundCheck m e = some { e with isGrounded := decide (
      (c ≠ EMPTY ∧
        TileHeight (castInt e.position.x) (castInt (e.position.y + 1)) c
          ≤ castInt (e.position.y + 1)) ∨
      (l ≠ EMPTY ∧
        TileHeight (castInt e.position.x - Int.tdiv e.width 2) (castInt (e.position.y + 1)) l
          ≤ castInt (e.position.y + 1)) ∨
      (r ≠ EMPTY ∧
        TileHeight (castInt e.position.x + Int.tdiv e.width 2 - 1) (castInt (e.position.y + 1)) r
          ≤ castInt (e.position.y + 1))) } := by
  rw [GroundCheck_eq, hc, hl, hr]
  unfold groundProbe
  dsimp only
  by_cases h1 : c ≠ EMPTY ∧
      TileHeight (castInt e.position.x) (castInt (e.position.y + 1)) c
        ≤ castInt (e.position.y + 1)
  · simp [h1]
  · by_cases h2 : l ≠ EMPTY ∧
        TileHeight (castInt e.position.x - Int.tdiv e.width 2) (castInt (e.position.y + 1)) l
          ≤ castInt (e.position.y + 1)
    · simp [h1, h2]
    · simp [h1, h2]

/-! ## One frame of `EntityMoveUpdate` -/

theorem MoveCalc_cases (delta : ℚ) (e : Entity) :
    ∃ vx : ℚ, MoveCalc delta e = { e with velocity := { e.velocity with x := vx } } := by
  unfold MoveCalc
  dsimp only
  split_ifs <;> exact ⟨_, rfl⟩

/-- The grounded jump: `GravityCalc` on a grounded entity that is not jumping, with the
jump input held, launches and adds the frame's gravity on top of `jumpImpulse`. -/
theorem GravityCalc_jump (delta : ℚ) (e : Entity) (hg : e.isGrounded = true)
    (hn : e.isJumping = false) (hj : e.control.jump = true) :
    (GravityCalc delta e).isGrounded = false ∧
    (GravityCalc delta e).isJumping = true ∧
    (GravityCalc delta e).velocity.y
      = min (e.jumpImpulse + e.gravity * delta) (-e.jumpImpulse) := by
  have hl : jumpLogic e = Jump e := by
    unfold jumpLogic
    rw [hg, hn, hj]
    rfl
  obtain ⟨a, b, _, _, _, f⟩ := addGravity_fields delta (Jump e)
  rw [GravityCalc_eq, hl]
  exact ⟨a, b, f⟩

theorem CollisionCheck_vertical_fields (m : TileMap) (delta : ℚ) (e e' : Entity)
    (h : CollisionCheck m delta e = some e') :
    e'.isGrounded = e.isGrounded ∧ e'.isJumping = e.isJumping ∧
    (e'.velocity.y = e.velocity.y ∨ e'.velocity.y = 0) := by
  unfold CollisionCheck at h
  cases hh : CollisionHorizontalBlocks m delta e with
  | none => rw [hh] at h; cases h
  | some e1 =>
    rw [hh] at h
    have hv : CollisionVerticalBlocks m delta e1 = some e' := h
    have h1 : e1.isGrounded = e.isGrounded ∧ e1.isJumping = e.isJumping ∧
        e1.velocity.y = e.velocity.y := by
      rcases CollisionHorizontalBlocks_cases m delta e e1 hh with ⟨_, h2⟩ | ⟨_, h2⟩ <;>
        rw [h2] <;> exact ⟨rfl, rfl, rfl⟩
    rcases CollisionVerticalBlocks_cases m delta e1 e' hv with ⟨_, h2⟩ | ⟨_, h2⟩
    · rw [h2]; exact ⟨h1.1, h1.2.1, Or.inr rfl⟩
    · rw [h2]; exact ⟨h1.1, h1.2.1, Or.inl h1.2.2⟩

/-- C7, as amended: for an entity that is not jumping and stands on a `BLOCK` (the tile
under the centre of its feet), in a frame that sees the jump input held,
`EntityMoveUpdate` leaves `isGrounded = false`, `isJumping = true`, and `velocity.y` equal
to `jumpImpulse` plus that frame's gravity step, capped at `-jumpImpulse`; or `velocity.y`
equal to `0` when the vertical collision resolver snaps the entity in that frame. -/
theorem EntityMoveUpdate_jump_frame (m : TileMap) (delta : ℚ) (e e' : Entity)
    (hstand : MapGetTile m (castInt e.position.x >>> TILE_SHIFT)
      (castInt (e.position.y + 1) >>> TILE_SHIFT) = some BLOCK)
    (hn : e.isJumping = false) (hj : e.control.jump = true)
    (hrun : EntityMoveUpdate m delta e = some e') :
    e'.isGrounded = false ∧ e'.isJumping = true ∧
    (e'.velocity.y = min (e.jumpImpulse + e.gravity * delta) (-e.jumpImpulse) ∨
      e'.velocity.y = 0) := by
  unfold EntityMoveUpdate at hrun
  rw [GroundCheck_center_block m e hstand] at hrun
  dsimp only at hrun
  obtain ⟨vx, hm⟩ := MoveCalc_cases delta (GetDirection { e with isGrounded := true })
  rw [hm] at hrun
  split at hrun
  · cases hrun
  · rename_i e5 h5
    obtain ⟨a, b, c⟩ := GravityCalc_jump delta
      { GetDirection { e with isGrounded := true } with
        velocity := { (GetDirection { e with isGrounded := true }).velocity with x := vx } }
      rfl hn hj
    obtain ⟨p, q, r⟩ := CollisionCheck_vertical_fields m delta _ e5 h5
    have he : e' = DisplacementCommit m delta e5 := (Option.some.inj hrun).symm
    rw [he]
    refine ⟨p.trans a, q.trans b, ?_⟩
    rcases r with r | r
    · left; exact r.trans c
    · right; exact r

theorem MoveCalc_velocity_congr (delta : ℚ) (e1 e2 : Entity) (hd : e1.direction = e2.direction)
    (hv : e1.velocity.x = e2.velocity.x) (ha : e1.acc = e2.acc) (hm : e1.maxSpd = e2.maxSpd)
    (hc : e1.dcc = e2.dcc) : (MoveCalc delta e1).velocity.x = (MoveCalc delta e2).velocity.x := by
  unfold MoveCalc
  dsimp only
  rw [hd, hv, ha, hm, hc]
  split_ifs <;> rfl

theorem jumpLogic_horizontal_fields (e : Entity) :
    (jumpLogic e).velocity.x = e.velocity.x ∧ (jumpLogic e).hsp = e.hsp ∧
    (jumpLogic e).position = e.position ∧ (jumpLogic e).width = e.width ∧
    (jumpLogic e).height = e.height := by
  unfold jumpLogic Jump
  dsimp only
  split_ifs <;> exact ⟨rfl, rfl, rfl, rfl, rfl⟩

theorem addGravity_horizontal_fields (delta : ℚ) (e : Entity) :
    (addGravity delta e).velocity.x = e.velocity.x ∧ (addGravity delta e).hsp = e.hsp ∧
    (addGravity delta e).position = e.position ∧ (addGravity delta e).width = e.width ∧
    (addGravity delta e).height = e.height := by
  unfold addGravity
  dsimp only
  split_ifs <;> exact ⟨rfl, rfl, rfl, rfl, rfl⟩

theorem GravityCalc_horizontal_fields (delta : ℚ) (e : Entity) :
    (GravityCalc delta e).velocity.x = e.velocity.x ∧ (GravityCalc delta e).hsp = e.hsp ∧
    (GravityCalc delta e).position = e.position ∧ (GravityCalc delta e).width = e.width ∧
    (GravityCalc delta e).height = e.height := by
  rw [GravityCalc_eq]
  obtain ⟨a1, a2, a3, a4, a5⟩ := addGravity_horizontal_fields delta (jumpLogic e)
  obtain ⟨b1, b2, b3, b4, b5⟩ := jumpLogic_horizontal_fields e
  exact ⟨a1.trans b1, a2.trans b2, a3.trans b3, a4.trans b4, a5.trans b5⟩

theorem wholePart_zero : wholePart 0 = 0 := by
  unfold wholePart; rw [sign_zero]; simp

theorem Clamp_of_mem (v lo hi : ℚ) (h1 : lo ≤ v) (h2 : v ≤ hi) : Clamp v lo hi = v := by
  unfold Clamp
  dsimp only
  rw [if_neg (not_lt.mpr h1), if_neg (not_lt.mpr h2)]

/-- The displacement commit leaves an axis at rest where it is. -/
theorem DisplacementCommit_rest_x (m : TileMap) (delta : ℚ) (e : Entity)
    (hv : e.velocity.x = 0) (hr : e.hsp = 0) (h0 : 0 ≤ e.position.x)
    (h1 : e.position.x ≤ ((m.TILE_MAP_WIDTH * TILE_SIZE : ℤ) : ℚ)) :
    (DisplacementCommit m delta e).position.x = e.position.x ∧
    (DisplacementCommit m delta e).velocity.x = 0 ∧
    (DisplacementCommit m delta e).hsp = 0 := by
  unfold DisplacementCommit
  dsimp only
  rw [hv, hr, zero_mul, add_zero, pixelStep_zero]
  refine ⟨?_, rfl, ?_⟩
  · rw [Int.cast_zero, add_zero]
    exact Clamp_of_mem _ _ _ h0 h1
  · rw [Int.cast_zero, wholePart_zero, Int.cast_zero, sub_zero]

/-- C9: when the intended step `xsp` of the frame is positive and at least one of the three
destination probes at column `(x + side + xsp) >> 4`, `side = width/2 - 1`, rows of `y`,
`y - height/2` and `y - height + 1`, is solid, then after `EntityMoveUpdate`
`position.x = ((x + side + xsp) & ~15) - 1 - side`, `velocity.x = 0` and `hsp = 0`, provided
the snapped value lies in the clamp range `[0, TILE_MAP_WIDTH * 16]`. -/
theorem EntityMoveUpdate_wall_right (m : TileMap) (delta : ℚ) (e e' : Entity) (b mt t : ℤ)
    (hstep : 0 < intendedStepX delta e)
    (hb : MapGetTile m
      ((castInt e.position.x + (Int.tdiv e.width 2 - 1) + intendedStepX delta e) >>> TILE_SHIFT)
      (castInt e.position.y >>> TILE_SHIFT) = some b)
    (hmt : MapGetTile m
      ((castInt e.position.x + (Int.tdiv e.width 2 - 1) + intendedStepX delta e) >>> TILE_SHIFT)
      ((castInt e.position.y - Int.tdiv e.height 2) >>> TILE_SHIFT) = some mt)
    (ht : MapGetTile m
      ((castInt e.position.x + (Int.tdiv e.width 2 - 1) + intendedStepX delta e) >>> TILE_SHIFT)
      ((castInt e.position.y - e.height + 1) >>> TILE_SHIFT) = some t)
    (hit : b > EMPTY ∨ mt > EMPTY ∨ t > EMPTY)
    (hlo : 0 ≤ tileFloor (castInt e.position.x + (Int.tdiv e.width 2 - 1) + intendedStepX delta e)
      - 1 - (Int.tdiv e.width 2 - 1))
    (hhi : tileFloor (castInt e.position.x + (Int.tdiv e.width 2 - 1) + intendedStepX delta e)
      - 1 - (Int.tdiv e.width 2 - 1) ≤ m.TILE_MAP_WIDTH * TILE_SIZE)
    (hrun : EntityMoveUpdate m delta e = some e') :
    e'.position.x = ((tileFloor
        (castInt e.position.x + (Int.tdiv e.width 2 - 1) + intendedStepX delta e)
        - 1 - (Int.tdiv e.width 2 - 1) : ℤ) : ℚ) ∧
    e'.velocity.x = 0 ∧ e'.hsp = 0 := by
  unfold EntityMoveUpdate at hrun
  cases hg : GroundCheck m e with
  | none => rw [hg] at hrun; cases hrun
  | some g =>
    rw [hg] at hrun
    dsimp only at hrun
    obtain ⟨gb, rfl⟩ := GroundCheck_cases m e g hg
    obtain ⟨e4, he4⟩ : ∃ e4, e4 = GravityCalc delta
        (MoveCalc delta (GetDirection { e with isGrounded := gb })) := ⟨_, rfl⟩
    rw [← he4] at hrun
    -- the fields the horizontal resolver reads
    obtain ⟨f1, f2, f3, f4, f5⟩ := GravityCalc_horizontal_fields delta
      (MoveCalc delta (GetDirection { e with isGrounded := gb }))
    obtain ⟨vx, hvx⟩ := MoveCalc_cases delta (GetDirection { e with isGrounded := gb })
    have hv : e4.velocity.x = (MoveCalc delta (GetDirection e)).velocity.x := by
      rw [he4, f1]
      exact MoveCalc_velocity_congr delta _ _ rfl rfl rfl rfl rfl
    have hh : e4.hsp = e.hsp := by rw [he4, f2, hvx]; rfl
    have hp : e4.position = e.position := by rw [he4, f3, hvx]; rfl
    have hw : e4.width = e.width := by rw [he4, f4, hvx]; rfl
    have hht : e4.height = e.height := by rw [he4, f5, hvx]; rfl
    have hxsp : pixelStep (e4.velocity.x * delta + e4.hsp) = intendedStepX delta e := by
      rw [hv, hh]; rfl
    have hmid : castInt e.position.y + Int.tdiv (-e.height) 2
        = castInt e.position.y - Int.tdiv e.height 2 := by
      rw [Int.neg_tdiv]; ring
    have htop : castInt e.position.y + (-e.height + 1) = castInt e.position.y - e.height + 1 := by
      ring
    have hne : intendedStepX delta e ≠ 0 := ne_of_gt hstep
    have hsnaps : snapsHorizontal m delta e4 = true := by
      unfold snapsHorizontal
      dsimp only
      rw [hxsp, hp, hw, hht, if_pos hstep, hmid, htop, hb, hmt, ht]
      simp [hne, hit]
    have hX : horizontalSnapX delta e4 = tileFloor
        (castInt e.position.x + (Int.tdiv e.width 2 - 1) + intendedStepX delta e)
        - 1 - (Int.tdiv e.width 2 - 1) := by
      unfold horizontalSnapX
      dsimp only
      rw [hxsp, hp, hw]
      simp only [if_pos hstep]
    have hCH := CollisionHorizontalBlocks_of_snaps m delta e4 hsnaps
    cases hcc : CollisionCheck m delta e4 with
    | none => rw [hcc] at hrun; cases hrun
    | some e5 =>
      rw [hcc] at hrun
      have he' : e' = DisplacementCommit m delta e5 := (Option.some.inj hrun).symm
      unfold CollisionCheck at hcc
      rw [hCH] at hcc
      have hcv : CollisionVerticalBlocks m delta (horizontalSnapped delta e4) = some e5 := hcc
      have h5 : e5.position.x = (horizontalSnapX delta e4 : ℚ) ∧ e5.velocity.x = 0 ∧
          e5.hsp = 0 := by
        rcases CollisionVerticalBlocks_cases m delta _ e5 hcv with ⟨_, h2⟩ | ⟨_, h2⟩ <;>
          rw [h2] <;> exact ⟨rfl, rfl, rfl⟩
      obtain ⟨p1, p2, p3⟩ := h5
      rw [hX] at p1
      have q := DisplacementCommit_rest_x m delta e5 p2 p3
        (by rw [p1]; exact_mod_cast hlo) (by rw [p1]; exact_mod_cast hhi)
      rw [he']
      exact ⟨q.1.trans p1, q.2.1, q.2.2⟩

/-- Witness for C8: next to the right wall and on the floor of the demo map both
resolvers snap. -/
theorem collision_snap_idempotent_witness :
    snapsHorizontal demoMap (1 / 64) fallingRunner = true ∧
    snapsVertical demoMap (1 / 64) fallingRunner = true ∧
    (∃ e', CollisionHorizontalBlocks demoMap (1 / 64) fallingRunner = some e' ∧
      e'.position.x = (horizontalSnapX (1 / 64) fallingRunner : ℚ) ∧ e'.velocity.x = 0 ∧
      e'.hsp = 0 ∧ CollisionHorizontalBlocks demoMap (1 / 64) e' = some e') ∧
    (∃ e', CollisionVerticalBlocks demoMap (1 / 64) fallingRunner = some e' ∧
      e'.position.y = (verticalSnapY (1 / 64) fallingRunner : ℚ) ∧ e'.velocity.y = 0 ∧
      e'.vsp = 0 ∧ CollisionVerticalBlocks demoMap (1 / 64) e' = some e') :=
  ⟨by rw [demoMap_eq]; decide!, by rw [demoMap_eq]; decide!,
    (collision_snap_idempotent demoMap (1 / 64) fallingRunner).1 (by rw [demoMap_eq]; decide!),
    (collision_snap_idempotent demoMap (1 / 64) fallingRunner).2 (by rw [demoMap_eq]; decide!)⟩

/-- C7, as stated, fails: the demo player at rest on the floor row of the demo map, jump
held, `delta = 1/64`. After the frame `isGrounded` is false and `isJumping` is true, but
`velocity.y` is `jumpImpulse + gravity * delta = -1612800 + 83700 = -1529100`, not
`jumpImpulse`. -/
theorem EntityMoveUpdate_jump_frame_adds_gravity :
    jumpingPlayer.velocity.y = 0 ∧ jumpingPlayer.isJumping = false ∧
    jumpingPlayer.control.jump = true ∧
    (GroundCheck demoMap jumpingPlayer).map (fun e => e.isGrounded) = some true ∧
    EntityMoveUpdate demoMap (1 / 64) jumpingPlayer = some jumpedPlayer ∧
    jumpedPlayer.isGrounded = false ∧ jumpedPlayer.isJumping = true ∧
    jumpedPlayer.velocity.y = -1529100 ∧ jumpingPlayer.jumpImpulse = -1612800 ∧
    jumpedPlayer.velocity.y ≠ jumpingPlayer.jumpImpulse := by
  rw [demoMap_eq]; decide!

/-- Witness for C7 as amended: the same frame of the demo player. -/
theorem EntityMoveUpdate_jump_frame_witness :
    EntityMoveUpdate demoMap (1 / 64) jumpingPlayer = some jumpedPlayer ∧
    jumpedPlayer.isGrounded = false ∧ jumpedPlayer.isJumping = true ∧
    (jumpedPlayer.velocity.y
        = min (jumpingPlayer.jumpImpulse + jumpingPlayer.gravity * (1 / 64))
            (-jumpingPlayer.jumpImpulse) ∨
      jumpedPlayer.velocity.y = 0) :=
  ⟨by rw [demoMap_eq]; decide!,
    EntityMoveUpdate_jump_frame demoMap (1 / 64) jumpingPlayer jumpedPlayer
      (by rw [demoMap_eq]; decide!) (by decide!) (by decide!) (by rw [demoMap_eq]; decide!)⟩

/-- Witness for C9: the demo player one pixel short of the right wall of the demo map. -/
theorem EntityMoveUpdate_wall_right_witness :
    intendedStepX (1 / 64) wallRunner = 1 ∧
    EntityMoveUpdate demoMap (1 / 64) wallRunner = some wallRunnerAfter ∧
    wallRunnerAfter.position.x = ((tileFloor
        (castInt wallRunner.position.x + (Int.tdiv wallRunner.width 2 - 1)
          + intendedStepX (1 / 64) wallRunner)
        - 1 - (Int.tdiv wallRunner.width 2 - 1) : ℤ) : ℚ) ∧
    wallRunnerAfter.velocity.x = 0 ∧ wallRunnerAfter.hsp = 0 :=
  ⟨by decide!, by rw [demoMap_eq]; decide!,
    EntityMoveUpdate_wall_right demoMap (1 / 64) wallRunner wallRunnerAfter BLOCK BLOCK BLOCK
      (by decide!) (by rw [demoMap_eq]; decide!) (by rw [demoMap_eq]; decide!)
      (by rw [demoMap_eq]; decide!) (by decide!) (by decide!) (by rw [demoMap_eq]; decide!)
      (by rw [demoMap_eq]; decide!)⟩

/-- Witness for C10: on the left end of the platform of row 8 the centre and left probes
find `EMPTY` and the right probe finds `BLOCK`, so the player is grounded. -/
theorem GroundCheck_three_probes_witness :
    (GroundCheck demoMap edgePlayer).map (fun e => e.isGrounded) = some true := by
  rw [GroundCheck_three_probes demoMap edgePlayer EMPTY EMPTY BLOCK
    (by rw [demoMap_eq]; decide!) (by rw [demoMap_eq]; decide!) (by rw [demoMap_eq]; decide!)]
  decide!

/-! ## Surface height and the pixel step -/

/-- C11: for every integer pixel `y`, negative values included, and every `x`,
`TileHeight(x, y, BLOCK)` is the source expression `(y & ~TILE_ROUND) - 1` and equals
`16 * floor(y / 16) - 1`, whatever `x` is. -/
theorem TileHeight_block (x y : ℤ) :
    TileHeight x y BLOCK = Int.land y (Int.lnot TILE_ROUND) - 1 ∧
    TileHeight x y BLOCK = 16 * ⌊(y : ℚ) / 16⌋ - 1 ∧
    TileHeight x y BLOCK = TileHeight 0 y BLOCK := by
  have h : TileHeight x y BLOCK = tileFloor y - 1 := by
    unfold TileHeight
    rw [if_neg (by decide), if_pos rfl]
  refine ⟨by rw [h, tileFloor_eq_land], ?_, ?_⟩
  · rw [h, tileFloor_eq]
    have : ⌊(y : ℚ) / 16⌋ = y / 16 := by
      have := Rat.floor_intCast_div_natCast y 16
      simpa using this
    rw [this]
  · unfold TileHeight
    rfl

theorem castInt_eq_truncate (q : ℚ) : castInt q = truncateTowardZero q := by
  unfold truncateTowardZero
  by_cases h : 0 ≤ q
  · rw [if_pos h, castInt_of_nonneg h]
  · rw [if_neg h]
    have h' : 0 ≤ -q := by linarith
    have e := castInt_neg (-q)
    rw [neg_neg, castInt_of_nonneg h'] at e
    rw [e, ← Int.ceil_neg, neg_neg]

theorem floor_div_4096 (a : ℚ) : ⌊a⌋ / 4096 = ⌊a / 4096⌋ := by
  symm
  rw [Int.floor_eq_iff]
  have h1 : ((⌊a⌋ : ℤ) : ℚ) ≤ a := Int.floor_le a
  have h2 : a < ((⌊a⌋ : ℤ) : ℚ) + 1 := Int.lt_floor_add_one a
  have h3 : 4096 * (⌊a⌋ / 4096) ≤ ⌊a⌋ := by omega
  have h4 : ⌊a⌋ + 1 ≤ 4096 * (⌊a⌋ / 4096) + 4096 := by omega
  have h3' : (4096 : ℚ) * ((⌊a⌋ / 4096 : ℤ) : ℚ) ≤ ((⌊a⌋ : ℤ) : ℚ) := by exact_mod_cast h3
  have h4' : ((⌊a⌋ : ℤ) : ℚ) + 1 ≤ 4096 * ((⌊a⌋ / 4096 : ℤ) : ℚ) + 4096 := by exact_mod_cast h4
  constructor
  · rw [le_div_iff₀ (by norm_num)]; linarith
  · rw [div_lt_iff₀ (by norm_num)]; linarith

theorem shiftRight_12 (v : ℤ) : v >>> (12 : ℤ) = v / 4096 := by
  have h12 : (12 : ℤ) = ((12 : ℕ) : ℤ) := rfl
  rw [h12]
  cases v with
  | ofNat k =>
    show ((k : ℕ) : ℤ) >>> ((12 : ℕ) : ℤ) = ((k : ℕ) : ℤ) / 4096
    rw [Int.shiftRight_coe_nat, Nat.shiftRight_eq_div_pow]
    push_cast
    norm_num
  | negSucc k =>
    rw [Int.shiftRight_negSucc, Nat.shiftRight_eq_div_pow, Int.negSucc_eq, Int.negSucc_eq]
    push_cast
    omega

theorem pixelStep_eq_truncate (r : ℚ) : pixelStep r = truncateTowardZero (r / 4096) := by
  unfold pixelStep sign truncateTowardZero
  rw [shiftRight_12, abs_castInt, floor_div_4096]
  by_cases h0 : r < 0
  · have hq : ¬ 0 ≤ r / 4096 := by
      rw [not_le]; exact div_neg_of_neg_of_pos h0 (by norm_num)
    rw [if_pos h0, if_neg hq, abs_of_neg h0, neg_div, Int.floor_neg]
    ring
  · have hr : 0 ≤ r := not_lt.mp h0
    have hq : 0 ≤ r / 4096 := div_nonneg hr (by norm_num)
    rw [if_neg h0, if_pos hq, abs_of_nonneg hr]
    by_cases h1 : r < 1 / 10000
    · rw [if_pos h1, mul_zero]
      symm
      rw [Int.floor_eq_iff]
      constructor
      · simpa using hq
      · rw [div_lt_iff₀ (by norm_num)]; norm_num; linarith
    · rw [if_neg h1, mul_one]

/-- C12: for every raw velocity `r` the integer pixel step `((int)(abs(r)) >> 12) * sign(r)`
is `r / 4096` truncated toward zero; the step of `-r` is the negation of the step of `r`,
and the step is `0` whenever `|r| < 4096`. -/
theorem pixelStep_truncates (r : ℚ) :
    pixelStep r = truncateTowardZero (r / 4096) ∧
    pixelStep (-r) = -pixelStep r ∧
    (|r| < 4096 → pixelStep r = 0) := by
  refine ⟨pixelStep_eq_truncate r, ?_, ?_⟩
  · rw [pixelStep_eq_truncate, pixelStep_eq_truncate, ← castInt_eq_truncate,
      ← castInt_eq_truncate, neg_div, castInt_neg]
  · intro h
    unfold pixelStep
    rw [shiftRight_12, abs_castInt, floor_div_4096]
    have : ⌊|r| / 4096⌋ = 0 := by
      rw [Int.floor_eq_iff]
      constructor
      · simpa using div_nonneg (abs_nonneg r) (by norm_num : (0 : ℚ) ≤ 4096)
      · rw [div_lt_iff₀ (by norm_num)]; simpa using h
    rw [this, zero_mul]

/-- Witness for C12: a raw velocity of `-4000.5` steps zero pixels. -/
theorem pixelStep_truncates_witness :
    pixelStep (-8001 / 2) = truncateTowardZero ((-8001 / 2) / 4096) ∧
    pixelStep (-(-8001 / 2)) = -pixelStep (-8001 / 2) ∧
    pixelStep (-8001 / 2) = 0 :=
  ⟨(pixelStep_truncates (-8001 / 2)).1, (pixelStep_truncates (-8001 / 2)).2.1,
    (pixelStep_truncates (-8001 / 2)).2.2 (by decide!)⟩

/-! ## The level built by `MapInit` -/

theorem demoMap_cells (i : Fin 20) (j : Fin 12) :
    readTile demoMap (((i : ℕ) : ℤ) + ((j : ℕ) : ℤ) * demoMap.TILE_MAP_WIDTH) =
      some (if ((i : ℕ) : ℤ) = 0 ∨ ((j : ℕ) : ℤ) = 0 ∨ ((i : ℕ) : ℤ) = 20 - 1 ∨
          ((j : ℕ) : ℤ) = 12 - 1 then BLOCK
        else if (((i : ℕ) : ℤ), ((j : ℕ) : ℤ)) ∈ levelBlocks then BLOCK else EMPTY) := by
  revert i j
  rw [demoMap_eq]
  decide!

/-- C13: after `MapInit` for the 20 × 12 demo map every cell `(x, y)` of the grid, stored at
index `x + y * width`, is `BLOCK` on the border ring (`x = 0`, `y = 0`, `x = width - 1` or
`y = height - 1`); an interior cell is `BLOCK` exactly when it is one of the ten level
placements and `EMPTY` otherwise. -/
theorem MapInit_demo_layout (x y : ℤ) (hx0 : 0 ≤ x) (hx : x < 20) (hy0 : 0 ≤ y) (hy : y < 12) :
    demoMap.TILE_MAP_WIDTH = 20 ∧ demoMap.TILE_MAP_HEIGHT = 12 ∧
    readTile demoMap (x + y * demoMap.TILE_MAP_WIDTH) =
      some (if x = 0 ∨ y = 0 ∨ x = 20 - 1 ∨ y = 12 - 1 then BLOCK
        else if (x, y) ∈ levelBlocks then BLOCK else EMPTY) := by
  obtain ⟨i, rfl⟩ := Int.eq_ofNat_of_zero_le hx0
  obtain ⟨j, rfl⟩ := Int.eq_ofNat_of_zero_le hy0
  have hi : i < 20 := by exact_mod_cast hx
  have hj : j < 12 := by exact_mod_cast hy
  exact ⟨rfl, rfl, demoMap_cells ⟨i, hi⟩ ⟨j, hj⟩⟩

/-- Witness for C13: the placed cell `(3, 8)`, the interior cell `(2, 8)` next to it and
the border cell `(19, 5)`. -/
theorem MapInit_demo_layout_witness :
    readTile demoMap (3 + 8 * demoMap.TILE_MAP_WIDTH) = some BLOCK ∧
    readTile demoMap (2 + 8 * demoMap.TILE_MAP_WIDTH) = some EMPTY ∧
    readTile demoMap (19 + 5 * demoMap.TILE_MAP_WIDTH) = some BLOCK :=
  ⟨(MapInit_demo_layout 3 8 (by decide) (by decide) (by decide) (by decide)).2.2,
   (MapInit_demo_layout 2 8 (by decide) (by decide) (by decide) (by decide)).2.2,
   (MapInit_demo_layout 19 5 (by decide) (by decide) (by decide) (by decide)).2.2⟩

/-! ## Airborne frames of `GravityCalc` -/

theorem releasedVelocity_ge (e : Entity) : e.velocity.y ≤ releasedVelocity e := by
  unfold releasedVelocity
  split_ifs with h
  · exact le_of_lt h.2.2
  · exact le_rfl

/-- The airborne branch of the state machine never sets `isJumping` and never writes the
input snapshot. -/
theorem jumpLogic_airborne_flags (e : Entity) (hair : e.isGrounded = false) :
    (jumpLogic e).isJumping = (e.isJumping && e.control.jump) ∧
    (jumpLogic e).control = e.control := by
  unfold jumpLogic
  rw [hair, if_neg Bool.false_ne_true]
  by_cases hj : e.isJumping = true
  · rw [if_pos hj]
    by_cases hc : e.control.jump = true
    · have hn : ¬ ((!e.control.jump) = true) := by rw [hc]; decide
      rw [if_neg hn, hj, hc]
      exact ⟨rfl, rfl⟩
    · have hc' : e.control.jump = false := by simpa using hc
      have hp : (!e.control.jump) = true := by rw [hc']; rfl
      rw [if_pos hp, hc']
      dsimp only
      split_ifs <;> exact ⟨by simp, rfl⟩
  · have hj' : e.isJumping = false := by simpa using hj
    rw [if_neg hj, hj']
    exact ⟨rfl, rfl⟩

/-- C20: when `isGrounded` is false on entry, `GravityCalc` never starts a jump, whatever
the jump input: `isJumping` stays false if it was false (it stays true only while a jump
is in progress and the input is held), the input snapshot and `isGrounded` are left
unmodified, and gravity is added to the entity's own velocity (cut at `jumpRelease` on an
early release), never to `jumpImpulse` as `Jump` would assign it. -/
theorem GravityCalc_no_midair_jump (delta : ℚ) (e : Entity) (hair : e.isGrounded = false) :
    (GravityCalc delta e).isJumping = (e.isJumping && e.control.jump) ∧
    (e.isJumping = false → (GravityCalc delta e).isJumping = false) ∧
    (GravityCalc delta e).control = e.control ∧
    (GravityCalc delta e).isGrounded = false ∧
    (GravityCalc delta e).velocity.y
      = min (releasedVelocity e + e.gravity * delta) (-e.jumpImpulse) ∧
    (e.isJumping = false →
      (GravityCalc delta e).velocity.y
        = min (e.velocity.y + e.gravity * delta) (-e.jumpImpulse)) := by
  obtain ⟨_, b, _, _, f, _⟩ := addGravity_fields delta (jumpLogic e)
  obtain ⟨p, q⟩ := jumpLogic_airborne_flags e hair
  obtain ⟨h1, _, _, h4⟩ := GravityCalc_airborne delta e hair
  have hb : (GravityCalc delta e).isJumping = (e.isJumping && e.control.jump) := by
    rw [GravityCalc_eq]; exact b.trans p
  refine ⟨hb, ?_, ?_, h1, h4, ?_⟩
  · intro h
    rw [hb, h]; rfl
  · rw [GravityCalc_eq]; exact f.trans q
  · intro h
    have hr : releasedVelocity e = e.velocity.y := by
      unfold releasedVelocity
      rw [if_neg]
      rintro ⟨h1, _, _⟩
      rw [h] at h1; cases h1
    rw [h4, hr]

/-- Witness for C20: the demo player in the air, not jumping, with the jump input held. -/
theorem GravityCalc_no_midair_jump_witness :
    hoveringPlayer.isGrounded = false ∧ hoveringPlayer.isJumping = false ∧
    hoveringPlayer.control.jump = true ∧
    (GravityCalc (1 / 64) hoveringPlayer).isJumping = false ∧
    (GravityCalc (1 / 64) hoveringPlayer).control = hoveringPlayer.control ∧
    (GravityCalc (1 / 64) hoveringPlayer).velocity.y
      = min (hoveringPlayer.velocity.y + hoveringPlayer.gravity * (1 / 64))
          (-hoveringPlayer.jumpImpulse) :=
  ⟨by decide!, by decide!, by decide!,
    (GravityCalc_no_midair_jump (1 / 64) hoveringPlayer (by decide!)).2.1 (by decide!),
    (GravityCalc_no_midair_jump (1 / 64) hoveringPlayer (by decide!)).2.2.1,
    (GravityCalc_no_midair_jump (1 / 64) hoveringPlayer (by decide!)).2.2.2.2.2 (by decide!)⟩

/-- C14: in an airborne frame with a jump in progress and the jump input not held,
`GravityCalc` clears `isJumping` and cuts the upward velocity at `jumpRelease` before
gravity is added: `velocity.y` becomes
`min(max(velocity.y, jumpRelease) + gravity * delta, -jumpImpulse)`. -/
theorem GravityCalc_variable_jump (delta : ℚ) (e : Entity) (hair : e.isGrounded = false)
    (hj : e.isJumping = true) (hc : e.control.jump = false) :
    (GravityCalc delta e).isJumping = false ∧
    (GravityCalc delta e).velocity.y
      = min (max e.velocity.y e.jumpRelease + e.gravity * delta) (-e.jumpImpulse) := by
  obtain ⟨_, b, _, _, _, _⟩ := addGravity_fields delta (jumpLogic e)
  obtain ⟨p, _⟩ := jumpLogic_airborne_flags e hair
  obtain ⟨_, _, _, h4⟩ := GravityCalc_airborne delta e hair
  have hr : releasedVelocity e = max e.velocity.y e.jumpRelease := by
    unfold releasedVelocity
    by_cases hv : e.velocity.y < e.jumpRelease
    · rw [if_pos ⟨hj, hc, hv⟩, max_eq_right (le_of_lt hv)]
    · rw [if_neg (fun h => hv h.2.2), max_eq_left (not_lt.mp hv)]
  constructor
  · rw [GravityCalc_eq, b, p, hc]; simp
  · rw [h4, hr]

/-- Monotone gravity in exact arithmetic (`GravityCalcWith id`): for an airborne state with
`velocity.y ≤ -jumpImpulse` and `gravity * delta ≥ 0` one `GravityCalc` step does not
decrease `velocity.y`, and it strictly increases it while the result is below the terminal
value `-jumpImpulse` and `gravity * delta > 0`. The binary32 counterpart is
`GravityCalc_binary32_velocity_monotone`. -/
theorem GravityCalc_velocity_monotone (delta : ℚ) (e : Entity) (hair : e.isGrounded = false)
    (hv : e.velocity.y ≤ -e.jumpImpulse) (hg : 0 ≤ e.gravity * delta) :
    e.velocity.y ≤ (GravityCalc delta e).velocity.y ∧
    (0 < e.gravity * delta → (GravityCalc delta e).velocity.y < -e.jumpImpulse →
      e.velocity.y < (GravityCalc delta e).velocity.y) := by
  obtain ⟨_, _, _, h4⟩ := GravityCalc_airborne delta e hair
  have hr := releasedVelocity_ge e
  rw [h4]
  constructor
  · exact le_min (by linarith) hv
  · intro hpos hlt
    have hm : min (releasedVelocity e + e.gravity * delta) (-e.jumpImpulse)
        = releasedVelocity e + e.gravity * delta := by
      rcases min_choice (releasedVelocity e + e.gravity * delta) (-e.jumpImpulse) with h | h
      · exact h
      · rw [h] at hlt; exact absurd hlt (lt_irrefl _)
    rw [hm]; linarith

/-- Witness for C14: the demo player rising at launch speed releases the jump input; the
velocity is cut at `jumpRelease = -322560` and gravity `83700` is added. -/
theorem GravityCalc_variable_jump_witness :
    (GravityCalc (1 / 64) releasedPlayer).isJumping = false ∧
    (GravityCalc (1 / 64) releasedPlayer).velocity.y
      = min (max releasedPlayer.velocity.y releasedPlayer.jumpRelease
          + releasedPlayer.gravity * (1 / 64)) (-releasedPlayer.jumpImpulse) :=
  GravityCalc_variable_jump (1 / 64) releasedPlayer (by decide!) (by decide!) (by decide!)

/-- An instance of the exact-arithmetic statement: the demo player at rest in the air gains
the gravity step. -/
theorem GravityCalc_velocity_monotone_witness :
    hoveringPlayer.velocity.y < (GravityCalc (1 / 64) hoveringPlayer).velocity.y :=
  (GravityCalc_velocity_monotone (1 / 64) hoveringPlayer (by decide!) (by decide!)
    (by decide!)).2 (by decide!) (by decide!)

/-! ## Deceleration without overshoot -/

/-- C16: with `direction = 0` and a deceleration step `dcc * delta ≥ 0`, one `MoveCalc`
step yields a `velocity.x` that is `0`, or positive and not above a positive input, or
negative and not below a negative input: it never crosses zero. -/
theorem MoveCalc_no_overshoot (delta : ℚ) (e : Entity) (hdir : e.direction = 0)
    (hd : 0 ≤ e.dcc * delta) :
    (MoveCalc delta e).velocity.x = 0 ∨
    (0 < e.velocity.x ∧ 0 < (MoveCalc delta e).velocity.x ∧
      (MoveCalc delta e).velocity.x ≤ e.velocity.x) ∨
    (e.velocity.x < 0 ∧ (MoveCalc delta e).velocity.x < 0 ∧
      e.velocity.x ≤ (MoveCalc delta e).velocity.x) := by
  have hcast : ¬ ((|castInt e.direction| : ℤ) : ℚ) > 1 / 100 := by
    rw [hdir, castInt_zero]; norm_num
  unfold MoveCalc
  rw [if_neg hcast]
  dsimp only
  by_cases h1 : ((|castInt (0 - e.velocity.x)| : ℤ) : ℚ) < e.dcc * delta
  · left; rw [if_pos h1]
  · have hle : e.dcc * delta ≤ |e.velocity.x| := by
      have hc := abs_castInt_le (0 - e.velocity.x)
      have e2 : |0 - e.velocity.x| = |e.velocity.x| := by rw [zero_sub, abs_neg]
      rw [e2] at hc
      exact le_trans (not_lt.mp h1) hc
    rw [if_neg h1]
    by_cases h2 : e.velocity.x > 0
    · rw [if_pos h2]
      rw [abs_of_pos h2] at hle
      show e.velocity.x - e.dcc * delta = 0 ∨
        (0 < e.velocity.x ∧ 0 < e.velocity.x - e.dcc * delta ∧
          e.velocity.x - e.dcc * delta ≤ e.velocity.x) ∨
        (e.velocity.x < 0 ∧ e.velocity.x - e.dcc * delta < 0 ∧
          e.velocity.x ≤ e.velocity.x - e.dcc * delta)
      rcases eq_or_lt_of_le hle with h | h
      · left; linarith
      · right; left; exact ⟨h2, by linarith, by linarith⟩
    · rw [if_neg h2]
      have h3 : e.velocity.x ≤ 0 := not_lt.mp h2
      rw [abs_of_nonpos h3] at hle
      show e.velocity.x + e.dcc * delta = 0 ∨
        (0 < e.velocity.x ∧ 0 < e.velocity.x + e.dcc * delta ∧
          e.velocity.x + e.dcc * delta ≤ e.velocity.x) ∨
        (e.velocity.x < 0 ∧ e.velocity.x + e.dcc * delta < 0 ∧
          e.velocity.x ≤ e.velocity.x + e.dcc * delta)
      rcases eq_or_lt_of_le hle with h | h
      · left; linarith
      · right; right; exact ⟨by linarith, by linarith, by linarith⟩

/-- Witness for C16: the coasting demo player keeps a positive, smaller velocity. -/
theorem MoveCalc_no_overshoot_witness :
    (MoveCalc (1 / 64) coastingPlayer).velocity.x = 0 ∨
    (0 < coastingPlayer.velocity.x ∧ 0 < (MoveCalc (1 / 64) coastingPlayer).velocity.x ∧
      (MoveCalc (1 / 64) coastingPlayer).velocity.x ≤ coastingPlayer.velocity.x) ∨
    (coastingPlayer.velocity.x < 0 ∧ (MoveCalc (1 / 64) coastingPlayer).velocity.x < 0 ∧
      coastingPlayer.velocity.x ≤ (MoveCalc (1 / 64) coastingPlayer).velocity.x) :=
  MoveCalc_no_overshoot (1 / 64) coastingPlayer (by decide!) (by decide!)

/-! ## The surface-height test -/

theorem TileHeight_le_of_ne_empty (x y tile : ℤ) : TileHeight x y tile ≤ y := by
  unfold TileHeight
  split_ifs
  · exact le_rfl
  · have := tileFloor_le y
    omega
  · exact le_rfl

theorem groundProbe_eq (x y tile : ℤ) : groundProbe x y tile = decide (tile ≠ EMPTY) := by
  unfold groundProbe
  have h := TileHeight_le_of_ne_empty x y tile
  simp [h]

/-- C17: the surface-height test of `GroundCheck` never rejects a probe. `TileHeight` is
at most `y` for every tile code (strictly below `y` for `BLOCK`), so when the three foot
probes are read inside the array, `isGrounded` is set to true exactly when at least one of
the three probed tiles is not `EMPTY`. -/
theorem GroundCheck_never_rejects (m : TileMap) (e : Entity) (c l r : ℤ) :
    (∀ x y tile : ℤ, tile ≠ EMPTY → TileHeight x y tile ≤ y) ∧
    (∀ x y : ℤ, TileHeight x y BLOCK < y) ∧
    (MapGetTile m (castInt e.position.x >>> TILE_SHIFT)
        (castInt (e.position.y + 1) >>> TILE_SHIFT) = some c →
      MapGetTile m ((castInt e.position.x - Int.tdiv e.width 2) >>> TILE_SHIFT)
        (castInt (e.position.y + 1) >>> TILE_SHIFT) = some l →
      MapGetTile m ((castInt e.position.x + Int.tdiv e.width 2 - 1) >>> TILE_SHIFT)
        (castInt (e.position.y + 1) >>> TILE_SHIFT) = some r →
      GroundCheck m e =
        some { e with isGrounded := decide (c ≠ EMPTY ∨ l ≠ EMPTY ∨ r ≠ EMPTY) }) := by
  refine ⟨fun x y tile _ => TileHeight_le_of_ne_empty x y tile, ?_, ?_⟩
  · intro x y
    unfold TileHeight
    rw [if_neg (by decide), if_pos rfl]
    have := tileFloor_le y
    omega
  · intro hc hl hr
    rw [GroundCheck_eq, hc, hl, hr]
    dsimp only
    rw [groundProbe_eq, groundProbe_eq, groundProbe_eq]
    by_cases h1 : c ≠ EMPTY
    · simp [h1]
    · by_cases h2 : l ≠ EMPTY
      · simp [h1, h2]
      · simp [h1, h2]

/-- Witness for C17: on the left end of the platform of row 8 only the right probe finds a
tile, and that suffices. -/
theorem GroundCheck_never_rejects_witness :
    GroundCheck demoMap edgePlayer =
      some { edgePlayer with
             isGrounded := decide (EMPTY ≠ EMPTY ∨ EMPTY ≠ EMPTY ∨ BLOCK ≠ EMPTY) } :=
  (GroundCheck_never_rejects demoMap edgePlayer EMPTY EMPTY BLOCK).2.2
    (by rw [demoMap_eq]; decide!) (by rw [demoMap_eq]; decide!) (by rw [demoMap_eq]; decide!)

/-! ## Landing and clipping -/

theorem castInt_intCast (n : ℤ) : castInt (n : ℚ) = n := by
  unfold castInt
  rw [Rat.num_intCast, Rat.den_intCast]
  exact Int.tdiv_one n

theorem shiftRight_tileFloor (v : ℤ) : tileFloor v >>> TILE_SHIFT = v >>> TILE_SHIFT := by
  rw [shiftRight_tile, shiftRight_tile, tileFloor_eq]
  omega

/-- C18: if `CollisionVerticalBlocks` snaps a falling entity (intended step `ysp > 0`),
then `GroundCheck` on the resulting state, whose `position.x` is unchanged, returns it with
`isGrounded` true: the row of `y + 1` after the snap is the obstructing row and both
functions probe the same three columns. No assumption on `width` or on the position being
integral is needed. -/
theorem landing_implies_grounded (m : TileMap) (delta : ℚ) (e : Entity)
    (hs : snapsVertical m delta e = true)
    (hfall : 0 < pixelStep (e.velocity.y * delta + e.vsp)) :
    ∃ e', CollisionVerticalBlocks m delta e = some e' ∧
      e'.position.x = e.position.x ∧
      GroundCheck m e' = some { e' with isGrounded := true } := by
  refine ⟨verticalSnapped delta e, CollisionVerticalBlocks_of_snaps m delta e hs, rfl, ?_⟩
  have hY : verticalSnapY delta e
      = tileFloor (castInt e.position.y + pixelStep (e.velocity.y * delta + e.vsp)) - 1 := by
    unfold verticalSnapY
    dsimp only
    simp only [if_pos hfall]
    ring_nf
  have hy : castInt ((verticalSnapped delta e).position.y + 1)
      = tileFloor (castInt e.position.y + pixelStep (e.velocity.y * delta + e.vsp)) := by
    show castInt (((verticalSnapY delta e : ℤ) : ℚ) + 1) = _
    rw [hY]
    have : ((tileFloor (castInt e.position.y + pixelStep (e.velocity.y * delta + e.vsp)) - 1 : ℤ)
        : ℚ) + 1
        = ((tileFloor (castInt e.position.y + pixelStep (e.velocity.y * delta + e.vsp)) : ℤ)
        : ℚ) := by
      push_cast; ring
    rw [this, castInt_intCast]
  unfold snapsVertical at hs
  dsimp only at hs
  simp only [if_pos hfall, add_zero] at hs
  have hne : pixelStep (e.velocity.y * delta + e.vsp) ≠ 0 := ne_of_gt hfall
  have hl' : castInt e.position.x + Int.tdiv (-e.width) 2
      = castInt e.position.x - Int.tdiv e.width 2 := by
    rw [Int.neg_tdiv]; ring
  have hr' : castInt e.position.x + (Int.tdiv e.width 2 - 1)
      = castInt e.position.x + Int.tdiv e.width 2 - 1 := by ring
  rw [hl', hr'] at hs
  rw [GroundCheck_eq, hy, shiftRight_tileFloor]
  show (match MapGetTile m (castInt e.position.x >>> TILE_SHIFT)
        ((castInt e.position.y + pixelStep (e.velocity.y * delta + e.vsp)) >>> TILE_SHIFT) with
      | none => none
      | some c =>
        if groundProbe (castInt e.position.x)
            (tileFloor (castInt e.position.y + pixelStep (e.velocity.y * delta + e.vsp))) c then
          some { verticalSnapped delta e with isGrounded := true }
        else
          match MapGetTile m ((castInt e.position.x - Int.tdiv e.width 2) >>> TILE_SHIFT)
              ((castInt e.position.y + pixelStep (e.velocity.y * delta + e.vsp))
                >>> TILE_SHIFT) with
          | none => none
          | some l =>
            if groundProbe (castInt e.position.x - Int.tdiv e.width 2)
                (tileFloor (castInt e.position.y + pixelStep (e.velocity.y * delta + e.vsp)))
                l then
              some { verticalSnapped delta e with isGrounded := true }
            else
              match MapGetTile m ((castInt e.position.x + Int.tdiv e.width 2 - 1) >>> TILE_SHIFT)
                  ((castInt e.position.y + pixelStep (e.velocity.y * delta + e.vsp))
                    >>> TILE_SHIFT) with
              | none => none
              | some r =>
                some { verticalSnapped delta e with
                       isGrounded := groundProbe (castInt e.position.x + Int.tdiv e.width 2 - 1)
                         (tileFloor (castInt e.position.y
                           + pixelStep (e.velocity.y * delta + e.vsp))) r })
    = some { verticalSnapped delta e with isGrounded := true }
  split at hs
  · rename_i c l r hc hl hr
    rw [hc, hl, hr]
    dsimp only
    rw [groundProbe_eq, groundProbe_eq, groundProbe_eq]
    have hit : c > EMPTY ∨ l > EMPTY ∨ r > EMPTY := by simpa [hne] using hs
    by_cases h1 : c ≠ EMPTY
    · simp [h1]
    · by_cases h2 : l ≠ EMPTY
      · simp [h1, h2]
      · have h3 : r ≠ EMPTY := by
          rcases hit with h | h | h
          · exact absurd (ne_of_gt h) h1
          · exact absurd (ne_of_gt h) h2
          · exact ne_of_gt h
        simp [h1, h2, h3]
  · simp at hs

/-- Witness for C18: the demo player falling onto the platform of row 8 lands at
`y = 127` and is grounded there. -/
theorem landing_implies_grounded_witness :
    0 < pixelStep (landingPlayer.velocity.y * (1 / 64) + landingPlayer.vsp) ∧
    ∃ e', CollisionVerticalBlocks demoMap (1 / 64) landingPlayer = some e' ∧
      e'.position.x = landingPlayer.position.x ∧
      GroundCheck demoMap e' = some { e' with isGrounded := true } :=
  ⟨by decide!,
    landing_implies_grounded demoMap (1 / 64) landingPlayer (by rw [demoMap_eq]; decide!)
      (by decide!)⟩

/-! ## Clipping by the horizontal resolver -/

theorem nat_ldiff_low (r : Fin 16) : Nat.ldiff 15 r = 15 - r := by
  revert r
  decide!

theorem nat_ldiff_15 (n : ℕ) : Nat.ldiff 15 n = 15 - n % 16 := by
  have h : Nat.ldiff 15 n = Nat.ldiff 15 (n % 16) := by
    apply Nat.eq_of_testBit_eq
    intro i
    have h16 : (16 : ℕ) = 2 ^ 4 := by norm_num
    rw [Nat.testBit_ldiff, Nat.testBit_ldiff, h16, Nat.testBit_mod_two_pow]
    have h15 : (15 : ℕ) = 2 ^ 4 - 1 := by norm_num
    rw [h15, Nat.testBit_two_pow_sub_one]
    by_cases hi : i < 4 <;> simp [hi]
  rw [h]
  exact nat_ldiff_low ⟨n % 16, Nat.mod_lt _ (by norm_num)⟩

/-- The mask `v & TILE_ROUND` is the remainder of `v` modulo 16, also for negative `v`. -/
theorem land_tile_round (v : ℤ) : Int.land v TILE_ROUND = v % 16 := by
  unfold TILE_ROUND
  cases v with
  | ofNat n =>
    show ((n &&& 15 : ℕ) : ℤ) = ((n : ℕ) : ℤ) % 16
    have := Nat.and_pow_two_sub_one_eq_mod n 4
    norm_num at this
    rw [this]
    push_cast
    rfl
  | negSucc n =>
    show ((Nat.ldiff 15 n : ℕ) : ℤ) = Int.negSucc n % 16
    rw [nat_ldiff_15, Int.negSucc_eq]
    have : n % 16 < 16 := Nat.mod_lt _ (by norm_num)
    omega

/-- C19: a horizontal snap only clips the intended displacement. For an integral
`position.x = x` and a snapping resolver: when the step `xsp` is positive and the leading
edge `x + side`, `side = width/2 - 1`, is in an earlier column than the destination, the
new `x` satisfies `x ≤ newX < x + xsp` and `(newX + side) & 15 = 15`; when `xsp` is
negative and the leading edge, `side = -width/2`, is in a later column than the
destination, `x + xsp < newX ≤ x` and `(newX + side) & 15 = 0`. -/
theorem horizontal_snap_clips (m : TileMap) (delta : ℚ) (e : Entity)
    (hs : snapsHorizontal m delta e = true)
    (hint : e.position.x = ((castInt e.position.x : ℤ) : ℚ)) :
    (0 < pixelStep (e.velocity.x * delta + e.hsp) →
      (castInt e.position.x + (Int.tdiv e.width 2 - 1)) >>> TILE_SHIFT
        < (castInt e.position.x + (Int.tdiv e.width 2 - 1)
            + pixelStep (e.velocity.x * delta + e.hsp)) >>> TILE_SHIFT →
      ∃ e', CollisionHorizontalBlocks m delta e = some e' ∧
        e.position.x ≤ e'.position.x ∧
        e'.position.x < e.position.x + (pixelStep (e.velocity.x * delta + e.hsp) : ℚ) ∧
        Int.land (castInt e'.position.x + (Int.tdiv e.width 2 - 1)) TILE_ROUND = 15) ∧
    (pixelStep (e.velocity.x * delta + e.hsp) < 0 →
      (castInt e.position.x + Int.tdiv (-e.width) 2
            + pixelStep (e.velocity.x * delta + e.hsp)) >>> TILE_SHIFT
        < (castInt e.position.x + Int.tdiv (-e.width) 2) >>> TILE_SHIFT →
      ∃ e', CollisionHorizontalBlocks m delta e = some e' ∧
        e.position.x + (pixelStep (e.velocity.x * delta + e.hsp) : ℚ) < e'.position.x ∧
        e'.position.x ≤ e.position.x ∧
        Int.land (castInt e'.position.x + Int.tdiv (-e.width) 2) TILE_ROUND = 0) := by
  have hCH := CollisionHorizontalBlocks_of_snaps m delta e hs
  have hpx : (horizontalSnapped delta e).position.x = ((horizontalSnapX delta e : ℤ) : ℚ) := rfl
  constructor
  · intro hpos hcol
    refine ⟨horizontalSnapped delta e, hCH, ?_⟩
    have hX : horizontalSnapX delta e
        = tileFloor (castInt e.position.x + (Int.tdiv e.width 2 - 1)
            + pixelStep (e.velocity.x * delta + e.hsp)) - 1 - (Int.tdiv e.width 2 - 1) := by
      unfold horizontalSnapX
      dsimp only
      simp only [if_pos hpos]
    rw [shiftRight_tile, shiftRight_tile] at hcol
    have key : castInt e.position.x ≤ horizontalSnapX delta e ∧
        horizontalSnapX delta e
          < castInt e.position.x + pixelStep (e.velocity.x * delta + e.hsp) ∧
        (horizontalSnapX delta e + (Int.tdiv e.width 2 - 1)) % 16 = 15 := by
      rw [hX, tileFloor_eq]
      omega
    rw [hpx, castInt_intCast, land_tile_round]
    refine ⟨?_, ?_, key.2.2⟩
    · calc e.position.x = ((castInt e.position.x : ℤ) : ℚ) := hint
        _ ≤ ((horizontalSnapX delta e : ℤ) : ℚ) := by exact_mod_cast key.1
    · calc ((horizontalSnapX delta e : ℤ) : ℚ)
          < ((castInt e.position.x + pixelStep (e.velocity.x * delta + e.hsp) : ℤ) : ℚ) := by
            exact_mod_cast key.2.1
        _ = e.position.x + (pixelStep (e.velocity.x * delta + e.hsp) : ℚ) := by
            rw [Int.cast_add, ← hint]
  · intro hneg hcol
    refine ⟨horizontalSnapped delta e, hCH, ?_⟩
    have hnp : ¬ pixelStep (e.velocity.x * delta + e.hsp) > 0 := not_lt.mpr (le_of_lt hneg)
    have hX : horizontalSnapX delta e
        = tileFloor (castInt e.position.x + Int.tdiv (-e.width) 2
            + pixelStep (e.velocity.x * delta + e.hsp)) + TILE_SIZE
          - Int.tdiv (-e.width) 2 := by
      unfold horizontalSnapX
      dsimp only
      simp only [if_neg hnp]
    rw [shiftRight_tile, shiftRight_tile] at hcol
    have key : castInt e.position.x + pixelStep (e.velocity.x * delta + e.hsp)
          < horizontalSnapX delta e ∧
        horizontalSnapX delta e ≤ castInt e.position.x ∧
        (horizontalSnapX delta e + Int.tdiv (-e.width) 2) % 16 = 0 := by
      rw [hX, tileFloor_eq]
      unfold TILE_SIZE
      omega
    rw [hpx, castInt_intCast, land_tile_round]
    refine ⟨?_, ?_, key.2.2⟩
    · calc e.position.x + (pixelStep (e.velocity.x * delta + e.hsp) : ℚ)
          = ((castInt e.position.x + pixelStep (e.velocity.x * delta + e.hsp) : ℤ) : ℚ) := by
            rw [Int.cast_add, ← hint]
        _ < ((horizontalSnapX delta e : ℤ) : ℚ) := by exact_mod_cast key.1
    · calc ((horizontalSnapX delta e : ℤ) : ℚ) ≤ ((castInt e.position.x : ℤ) : ℚ) := by
            exact_mod_cast key.2.1
        _ = e.position.x := hint.symm

/-- Witness for C19: the demo player clipped at the right wall and at the left wall of the
demo map, `delta = 1/32`, intended steps `2` and `-2`. -/
theorem horizontal_snap_clips_witness :
    (∃ e', CollisionHorizontalBlocks demoMap (1 / 32) rightClipper = some e' ∧
      rightClipper.position.x ≤ e'.position.x ∧
      e'.position.x < rightClipper.position.x
        + (pixelStep (rightClipper.velocity.x * (1 / 32) + rightClipper.hsp) : ℚ) ∧
      Int.land (castInt e'.position.x + (Int.tdiv rightClipper.width 2 - 1)) TILE_ROUND = 15) ∧
    (∃ e', CollisionHorizontalBlocks demoMap (1 / 32) leftClipper = some e' ∧
      leftClipper.position.x
        + (pixelStep (leftClipper.velocity.x * (1 / 32) + leftClipper.hsp) : ℚ)
          < e'.position.x ∧
      e'.position.x ≤ leftClipper.position.x ∧
      Int.land (castInt e'.position.x + Int.tdiv (-leftClipper.width) 2) TILE_ROUND = 0) :=
  ⟨(horizontal_snap_clips demoMap (1 / 32) rightClipper (by rw [demoMap_eq]; decide!)
      (by decide!)).1 (by decide!) (by decide!),
    (horizontal_snap_clips demoMap (1 / 32) leftClipper (by rw [demoMap_eq]; decide!)
      (by decide!)).2 (by decide!) (by decide!)⟩

/-! ## Rounding to binary32 -/

theorem roundNearestEven_intCast (n : ℤ) : roundNearestEven (n : ℚ) = n := by
  unfold roundNearestEven
  simp

theorem roundNearestEven_mono {r s : ℚ} (h : r ≤ s) :
    roundNearestEven r ≤ roundNearestEven s := by
  have hf : ⌊r⌋ ≤ ⌊s⌋ := Int.floor_mono h
  have hr1 : roundNearestEven r ≤ ⌊r⌋ + 1 := by
    unfold roundNearestEven; dsimp only; split_ifs <;> omega
  have hs0 : ⌊s⌋ ≤ roundNearestEven s := by
    unfold roundNearestEven; dsimp only; split_ifs <;> omega
  rcases lt_or_eq_of_le hf with hlt | heq
  · omega
  · unfold roundNearestEven
    dsimp only
    rw [heq]
    split_ifs <;> first | omega | (exfalso; linarith)

theorem twoPow_eq (z : ℤ) : twoPow z = (2 : ℚ) ^ z := by
  unfold twoPow
  split_ifs with h
  · obtain ⟨n, rfl⟩ := Int.eq_ofNat_of_zero_le h
    simp
  · have h' : 0 ≤ -z := by omega
    obtain ⟨n, hn⟩ := Int.eq_ofNat_of_zero_le h'
    have hz : z = -(n : ℤ) := by omega
    rw [hn, hz]
    simp

theorem twoPow_pos (z : ℤ) : 0 < twoPow z := by
  rw [twoPow_eq]; positivity

theorem twoPow_add (a b : ℤ) : twoPow (a + b) = twoPow a * twoPow b := by
  rw [twoPow_eq, twoPow_eq, twoPow_eq, zpow_add₀ (by norm_num)]

theorem twoPow_le {a b : ℤ} (h : a ≤ b) : twoPow a ≤ twoPow b := by
  rw [twoPow_eq, twoPow_eq]
  exact zpow_le_zpow_right₀ (by norm_num) h

theorem twoPow_lt_iff {a b : ℤ} : twoPow a < twoPow b ↔ a < b := by
  rw [twoPow_eq, twoPow_eq]
  exact zpow_lt_zpow_iff_right₀ (by norm_num)

theorem log2Fuel_spec (fuel n : ℕ) (hn : n ≠ 0) (hf : n ≤ fuel) :
    2 ^ log2Fuel fuel n ≤ n ∧ n < 2 ^ (log2Fuel fuel n + 1) := by
  induction fuel generalizing n with
  | zero => omega
  | succ fuel ih =>
    unfold log2Fuel
    by_cases h2 : n < 2
    · rw [if_pos h2]
      constructor <;> simp <;> omega
    · rw [if_neg h2]
      have hn2 : n / 2 ≠ 0 := by omega
      obtain ⟨a, b⟩ := ih (n / 2) hn2 (by omega)
      constructor
      · rw [pow_succ]; omega
      · rw [pow_succ]; omega

theorem floorLog2_spec (n : ℕ) (hn : n ≠ 0) :
    2 ^ floorLog2 n ≤ n ∧ n < 2 ^ (floorLog2 n + 1) :=
  log2Fuel_spec n n hn le_rfl

/-- The binade of a positive rational: `2 ^ binade q ≤ q < 2 ^ (binade q + 1)`. -/
theorem binade_spec {q : ℚ} (hq : 0 < q) :
    twoPow (binade q) ≤ q ∧ q < twoPow (binade q + 1) := by
  unfold binade
  by_cases h1 : 1 ≤ q
  · rw [if_pos h1]
    have hn : ⌊q⌋₊ ≠ 0 := by
      have : 1 ≤ ⌊q⌋₊ := Nat.le_floor (by simpa using h1)
      omega
    obtain ⟨a, b⟩ := floorLog2_spec ⌊q⌋₊ hn
    have hfl : ((⌊q⌋₊ : ℕ) : ℚ) ≤ q := Nat.floor_le (le_of_lt hq)
    have hlt : q < ((⌊q⌋₊ : ℕ) : ℚ) + 1 := Nat.lt_floor_add_one q
    constructor
    · rw [twoPow_eq, zpow_natCast]
      calc (2 : ℚ) ^ floorLog2 ⌊q⌋₊ = ((2 ^ floorLog2 ⌊q⌋₊ : ℕ) : ℚ) := by push_cast; rfl
        _ ≤ ((⌊q⌋₊ : ℕ) : ℚ) := by exact_mod_cast a
        _ ≤ q := hfl
    · have e : ((floorLog2 ⌊q⌋₊ : ℕ) : ℤ) + 1 = ((floorLog2 ⌊q⌋₊ + 1 : ℕ) : ℤ) := by push_cast; rfl
      rw [twoPow_eq, e, zpow_natCast]
      calc q < ((⌊q⌋₊ : ℕ) : ℚ) + 1 := hlt
        _ = ((⌊q⌋₊ + 1 : ℕ) : ℚ) := by push_cast; rfl
        _ ≤ ((2 ^ (floorLog2 ⌊q⌋₊ + 1) : ℕ) : ℚ) := by exact_mod_cast b
        _ = (2 : ℚ) ^ (floorLog2 ⌊q⌋₊ + 1) := by push_cast; rfl
  · rw [if_neg h1]
    have hq1 : q < 1 := not_le.mp h1
    have hinv : 1 < 1 / q := by rw [lt_div_iff₀ hq]; linarith
    have hc1 : 1 / q ≤ ((⌈1 / q⌉₊ : ℕ) : ℚ) := Nat.le_ceil _
    have hc2 : ((⌈1 / q⌉₊ : ℕ) : ℚ) < 1 / q + 1 := Nat.ceil_lt_add_one (by positivity)
    have hn2 : 2 ≤ ⌈1 / q⌉₊ := by
      have : (1 : ℚ) < ((⌈1 / q⌉₊ : ℕ) : ℚ) := lt_of_lt_of_le hinv hc1
      have : 1 < ⌈1 / q⌉₊ := by exact_mod_cast this
      omega
    have hm : ⌈1 / q⌉₊ - 1 ≠ 0 := by omega
    obtain ⟨a, b⟩ := floorLog2_spec (⌈1 / q⌉₊ - 1) hm
    set k := floorLog2 (⌈1 / q⌉₊ - 1) with hk
    have a' : ((2 ^ k : ℕ) : ℚ) + 1 ≤ ((⌈1 / q⌉₊ : ℕ) : ℚ) := by
      have : 2 ^ k + 1 ≤ ⌈1 / q⌉₊ := by omega
      exact_mod_cast this
    have b' : ((⌈1 / q⌉₊ : ℕ) : ℚ) ≤ ((2 ^ (k + 1) : ℕ) : ℚ) := by
      have : ⌈1 / q⌉₊ ≤ 2 ^ (k + 1) := by omega
      exact_mod_cast this
    constructor
    · have e : -(((k : ℕ) : ℤ) + 1) = -(((k + 1 : ℕ) : ℕ) : ℤ) := by push_cast; rfl
      rw [twoPow_eq, e, zpow_neg, zpow_natCast]
      have hpos : (0 : ℚ) < 2 ^ (k + 1) := by positivity
      rw [inv_le_comm₀ hpos hq]
      have : 1 / q ≤ (2 : ℚ) ^ (k + 1) := by
        calc 1 / q ≤ ((⌈1 / q⌉₊ : ℕ) : ℚ) := hc1
          _ ≤ ((2 ^ (k + 1) : ℕ) : ℚ) := b'
          _ = (2 : ℚ) ^ (k + 1) := by push_cast; rfl
      simpa using this
    · have e : -(((k : ℕ) : ℤ) + 1) + 1 = -((k : ℕ) : ℤ) := by ring
      rw [twoPow_eq, e, zpow_neg, zpow_natCast]
      have hpos : (0 : ℚ) < 2 ^ k := by positivity
      rw [lt_inv_comm₀ hq hpos]
      have : (2 : ℚ) ^ k < 1 / q := by
        have h3 : ((2 ^ k : ℕ) : ℚ) < 1 / q := by linarith
        simpa using h3
      simpa using this

theorem floatUlp_pos (q : ℚ) : 0 < floatUlp q := twoPow_pos _

theorem roundFloatAbs_nonneg {q : ℚ} (hq : 0 ≤ q) : 0 ≤ roundFloatAbs q := by
  unfold roundFloatAbs
  have hu := floatUlp_pos q
  have h0 : roundNearestEven 0 ≤ roundNearestEven (q / floatUlp q) :=
    roundNearestEven_mono (div_nonneg hq (le_of_lt hu))
  have hz : roundNearestEven 0 = 0 := by
    have := roundNearestEven_intCast 0
    simpa using this
  rw [hz] at h0
  have : (0 : ℚ) ≤ (roundNearestEven (q / floatUlp q) : ℚ) := by exact_mod_cast h0
  exact mul_nonneg this (le_of_lt hu)

theorem twoPow_natCast (n : ℕ) : twoPow (n : ℤ) = (((2 : ℤ) ^ n : ℤ) : ℚ) := by
  rw [twoPow_eq, zpow_natCast]; push_cast; rfl

theorem twoPow_neg_natCast (s : ℕ) : twoPow (-(s : ℤ)) = 1 / (2 : ℚ) ^ s := by
  rw [twoPow_eq, zpow_neg, zpow_natCast, one_div]

/-- Values on a binary grid with a numerator below `2 ^ 24` are binary32 values: rounding
leaves them unchanged. -/
theorem roundFloatAbs_grid (m : ℤ) (s : ℕ) (hm0 : 0 < m) (hm : m < 2 ^ 24) (hs : s ≤ 149) :
    roundFloatAbs ((m : ℚ) / 2 ^ s) = (m : ℚ) / 2 ^ s := by
  have hq : (m : ℚ) / 2 ^ s = (m : ℚ) * twoPow (-(s : ℤ)) := by
    rw [twoPow_neg_natCast]; ring
  have hqpos : 0 < (m : ℚ) / 2 ^ s := by
    have : (0 : ℚ) < (m : ℚ) := by exact_mod_cast hm0
    positivity
  obtain ⟨hlo, _⟩ := binade_spec hqpos
  have hupper : (m : ℚ) / 2 ^ s < twoPow (24 - (s : ℤ)) := by
    have e24 : twoPow (24 - (s : ℤ)) = twoPow 24 * twoPow (-(s : ℤ)) := by
      rw [← twoPow_add]; congr 1
    have h24 : twoPow 24 = ((2 ^ 24 : ℤ) : ℚ) := by
      have := twoPow_natCast 24
      simpa using this
    rw [hq, e24, h24]
    have hmq : (m : ℚ) < ((2 ^ 24 : ℤ) : ℚ) := by exact_mod_cast hm
    exact mul_lt_mul_of_pos_right hmq (twoPow_pos _)
  have he : binade ((m : ℚ) / 2 ^ s) < 24 - (s : ℤ) :=
    twoPow_lt_iff.mp (lt_of_le_of_lt hlo hupper)
  have hE : max (binade ((m : ℚ) / 2 ^ s)) (-126) - 23 ≤ -(s : ℤ) := by
    have : max (binade ((m : ℚ) / 2 ^ s)) (-126) ≤ 23 - (s : ℤ) := by
      apply max_le <;> omega
    omega
  obtain ⟨n, hn⟩ := Int.eq_ofNat_of_zero_le (sub_nonneg.mpr hE)
  have hsplit : twoPow (-(s : ℤ))
      = twoPow (n : ℤ) * twoPow (max (binade ((m : ℚ) / 2 ^ s)) (-126) - 23) := by
    rw [← twoPow_add]; congr 1; omega
  have key : ∀ U : ℚ, 0 < U → twoPow (-(s : ℤ)) = twoPow (n : ℤ) * U →
      (roundNearestEven ((m : ℚ) / 2 ^ s / U) : ℚ) * U = (m : ℚ) / 2 ^ s := by
    intro U hU hsp
    have hdiv : (m : ℚ) / 2 ^ s / U = ((m * 2 ^ n : ℤ) : ℚ) := by
      rw [hq, hsp, twoPow_natCast]
      field_simp
      ring
    rw [hdiv, roundNearestEven_intCast, hq, hsp, twoPow_natCast]
    push_cast
    ring
  unfold roundFloatAbs floatUlp
  exact key _ (twoPow_pos _) hsplit

theorem roundFloat_grid (m : ℤ) (s : ℕ) (hm : |m| < 2 ^ 24) (hs : s ≤ 149) :
    roundFloat ((m : ℚ) / 2 ^ s) = (m : ℚ) / 2 ^ s := by
  have hp : (0 : ℚ) < 2 ^ s := by positivity
  obtain ⟨h1, h2⟩ := abs_lt.mp hm
  unfold roundFloat
  rcases lt_trichotomy m 0 with hneg | hzero | hpos
  · have hq : (m : ℚ) / 2 ^ s < 0 := by
      have : (m : ℚ) < 0 := by exact_mod_cast hneg
      exact div_neg_of_neg_of_pos this hp
    rw [if_pos hq]
    have e : -((m : ℚ) / 2 ^ s) = ((-m : ℤ) : ℚ) / 2 ^ s := by push_cast; ring
    rw [e, roundFloatAbs_grid (-m) s (by omega) (by omega) hs]
    push_cast; ring
  · rw [hzero]; simp
  · have hq : 0 < (m : ℚ) / 2 ^ s := by
      have : (0 : ℚ) < (m : ℚ) := by exact_mod_cast hpos
      positivity
    rw [if_neg (not_lt.mpr (le_of_lt hq)), if_neg (ne_of_gt hq)]
    exact roundFloatAbs_grid m s hpos h2 hs

theorem twoPow_24 : twoPow 24 = ((2 ^ 24 : ℤ) : ℚ) := by
  have := twoPow_natCast 24
  simpa using this

theorem twoPow_23 : twoPow 23 = ((2 ^ 23 : ℤ) : ℚ) := by
  have := twoPow_natCast 23
  simpa using this

theorem roundFloatAbs_mono {x y : ℚ} (hx : 0 < x) (hxy : x ≤ y) :
    roundFloatAbs x ≤ roundFloatAbs y := by
  have hy : 0 < y := lt_of_lt_of_le hx hxy
  obtain ⟨hx1, hx2⟩ := binade_spec hx
  obtain ⟨hy1, hy2⟩ := binade_spec hy
  have hexy : binade x ≤ binade y := by
    have : twoPow (binade x) < twoPow (binade y + 1) :=
      lt_of_le_of_lt hx1 (lt_of_le_of_lt hxy hy2)
    have := twoPow_lt_iff.mp this
    omega
  have hE : max (binade x) (-126) ≤ max (binade y) (-126) := max_le_max hexy le_rfl
  rcases eq_or_lt_of_le hE with heq | hlt
  · have hu : floatUlp x = floatUlp y := by unfold floatUlp; rw [heq]
    unfold roundFloatAbs
    rw [hu]
    have hpos := floatUlp_pos y
    have h1 : roundNearestEven (x / floatUlp y) ≤ roundNearestEven (y / floatUlp y) :=
      roundNearestEven_mono (div_le_div_of_nonneg_right hxy (le_of_lt hpos))
    have h2 : (roundNearestEven (x / floatUlp y) : ℚ) ≤ (roundNearestEven (y / floatUlp y) : ℚ) := by
      exact_mod_cast h1
    exact mul_le_mul_of_nonneg_right h2 (le_of_lt hpos)
  · have hEy : max (binade y) (-126) = binade y := by
      have h126 : -126 ≤ max (binade x) (-126) := le_max_right _ _
      rcases max_choice (binade y) (-126) with h | h
      · exact h
      · rw [h] at hlt; omega
    -- upper bound for the rounded `x`
    have hA : roundFloatAbs x ≤ twoPow (max (binade x) (-126) + 1) := by
      unfold roundFloatAbs floatUlp
      have hu := twoPow_pos (max (binade x) (-126) - 23)
      have hsplit : twoPow (max (binade x) (-126) + 1)
          = twoPow 24 * twoPow (max (binade x) (-126) - 23) := by
        rw [← twoPow_add]; congr 1; ring
      have hxlt : x < twoPow (max (binade x) (-126) + 1) :=
        lt_of_lt_of_le hx2 (twoPow_le (by have := le_max_left (binade x) (-126); omega))
      have hdiv : x / twoPow (max (binade x) (-126) - 23) ≤ ((2 ^ 24 : ℤ) : ℚ) := by
        rw [div_le_iff₀ hu, ← twoPow_24, ← hsplit]
        exact le_of_lt hxlt
      have h1 := roundNearestEven_mono hdiv
      rw [roundNearestEven_intCast] at h1
      have h2 : (roundNearestEven (x / twoPow (max (binade x) (-126) - 23)) : ℚ)
          ≤ ((2 ^ 24 : ℤ) : ℚ) := by exact_mod_cast h1
      rw [hsplit, twoPow_24]
      exact mul_le_mul_of_nonneg_right h2 (le_of_lt hu)
    -- lower bound for the rounded `y`
    have hB : twoPow (max (binade y) (-126)) ≤ roundFloatAbs y := by
      unfold roundFloatAbs floatUlp
      have hu := twoPow_pos (max (binade y) (-126) - 23)
      have hsplit : twoPow (max (binade y) (-126))
          = twoPow 23 * twoPow (max (binade y) (-126) - 23) := by
        rw [← twoPow_add]; congr 1; ring
      have hyge : twoPow (max (binade y) (-126)) ≤ y := by rw [hEy]; exact hy1
      have hdiv : ((2 ^ 23 : ℤ) : ℚ) ≤ y / twoPow (max (binade y) (-126) - 23) := by
        rw [le_div_iff₀ hu, ← twoPow_23, ← hsplit]
        exact hyge
      have h1 := roundNearestEven_mono hdiv
      rw [roundNearestEven_intCast] at h1
      have h2 : ((2 ^ 23 : ℤ) : ℚ)
          ≤ (roundNearestEven (y / twoPow (max (binade y) (-126) - 23)) : ℚ) := by
        exact_mod_cast h1
      rw [hsplit, twoPow_23]
      exact mul_le_mul_of_nonneg_right h2 (le_of_lt hu)
    exact le_trans hA (le_trans (twoPow_le (by omega)) hB)

theorem roundFloat_zero : roundFloat 0 = 0 := by
  unfold roundFloat; simp

/-- Rounding to binary32 is monotone. -/
theorem roundFloat_mono {x y : ℚ} (hxy : x ≤ y) : roundFloat x ≤ roundFloat y := by
  unfold roundFloat
  rcases lt_trichotomy x 0 with hx | hx | hx
  · rw [if_pos hx]
    have hnx : 0 < -x := by linarith
    rcases lt_trichotomy y 0 with hy | hy | hy
    · rw [if_pos hy]
      have := roundFloatAbs_mono (by linarith : 0 < -y) (by linarith : -y ≤ -x)
      linarith
    · rw [if_neg (by linarith), if_pos hy]
      have := roundFloatAbs_nonneg (le_of_lt hnx)
      linarith
    · rw [if_neg (by linarith), if_neg (ne_of_gt hy)]
      have h1 := roundFloatAbs_nonneg (le_of_lt hnx)
      have h2 := roundFloatAbs_nonneg (le_of_lt hy)
      linarith
  · rw [if_neg (by linarith), if_pos hx]
    rcases eq_or_lt_of_le (by linarith : 0 ≤ y) with hy | hy
    · rw [if_neg (by linarith), if_pos hy.symm]
    · rw [if_neg (by linarith), if_neg (ne_of_gt hy)]
      exact roundFloatAbs_nonneg (le_of_lt hy)
  · have hy : 0 < y := lt_of_lt_of_le hx hxy
    rw [if_neg (by linarith), if_neg (ne_of_gt hx), if_neg (by linarith), if_neg (ne_of_gt hy)]
    exact roundFloatAbs_mono hx hxy

theorem roundFloat_nonneg {q : ℚ} (hq : 0 ≤ q) : 0 ≤ roundFloat q := by
  have := roundFloat_mono hq
  rwa [roundFloat_zero] at this

/-! ## The exact model and the binary32 model -/

theorem MoveCalcWith_id (delta : ℚ) (e : Entity) : MoveCalcWith id delta e = MoveCalc delta e :=
  rfl

theorem GravityCalcWith_id (delta : ℚ) (e : Entity) :
    GravityCalcWith id delta e = GravityCalc delta e :=
  rfl

theorem GravityCalcWith_eq (fl : ℚ → ℚ) (delta : ℚ) (e : Entity) :
    GravityCalcWith fl delta e = addGravityWith fl delta (jumpLogic e) := rfl

/-! ## Deceleration in binary32 arithmetic -/

theorem addGravityWith_velocity (fl : ℚ → ℚ) (delta : ℚ) (e : Entity) :
    (addGravityWith fl delta e).velocity.y
      = min (fl (e.velocity.y + fl (e.gravity * delta))) (-e.jumpImpulse) := by
  unfold addGravityWith
  dsimp only
  split_ifs with h
  · exact (min_eq_right (le_of_lt h)).symm
  · exact (min_eq_left (not_lt.mp h)).symm

/-- An airborne frame in binary32 arithmetic: the rounded gravity step is added to the
released velocity, the sum is rounded and capped at `-jumpImpulse`. -/
theorem GravityCalcWith_airborne (fl : ℚ → ℚ) (delta : ℚ) (e : Entity)
    (hair : e.isGrounded = false) :
    (GravityCalcWith fl delta e).velocity.y
      = min (fl (releasedVelocity e + fl (e.gravity * delta))) (-e.jumpImpulse) := by
  obtain ⟨_, h2, h3, h4⟩ := jumpLogic_airborne e hair
  rw [GravityCalcWith_eq, addGravityWith_velocity, h2, h3, h4]

theorem roundFloat_releasedVelocity (e : Entity) (hrv : roundFloat e.velocity.y = e.velocity.y)
    (hrr : roundFloat e.jumpRelease = e.jumpRelease) :
    roundFloat (releasedVelocity e) = releasedVelocity e := by
  unfold releasedVelocity
  split_ifs
  · exact hrr
  · exact hrv

/-- C15, as amended: in the program's binary32 arithmetic, for an airborne state whose
`velocity.y` and `jumpRelease` are binary32 values, with `velocity.y ≤ -jumpImpulse` and
`gravity * delta ≥ 0`, one `GravityCalc` step does not decrease `velocity.y`. It strictly
increases it while the result is below the terminal value `-jumpImpulse` when the step is
not absorbed by rounding, which holds whenever `velocity.y = a / 2 ^ s`,
`jumpRelease = b / 2 ^ s` and the rounded step `gravity * delta = p / 2 ^ s > 0` lie on a
common binary grid (`s ≤ 149`) with `|a|`, `|b|` and `p` below `2 ^ 23`. -/
theorem GravityCalc_binary32_velocity_monotone (delta : ℚ) (e : Entity)
    (hair : e.isGrounded = false) (hv : e.velocity.y ≤ -e.jumpImpulse)
    (hg : 0 ≤ e.gravity * delta) (hrv : roundFloat e.velocity.y = e.velocity.y)
    (hrr : roundFloat e.jumpRelease = e.jumpRelease) :
    e.velocity.y ≤ (GravityCalcWith roundFloat delta e).velocity.y ∧
    ∀ (s : ℕ) (a b p : ℤ), s ≤ 149 →
      e.velocity.y = (a : ℚ) / 2 ^ s → e.jumpRelease = (b : ℚ) / 2 ^ s →
      roundFloat (e.gravity * delta) = (p : ℚ) / 2 ^ s →
      |a| < 2 ^ 23 → |b| < 2 ^ 23 → 0 < p → p < 2 ^ 23 →
      (GravityCalcWith roundFloat delta e).velocity.y < -e.jumpImpulse →
      e.velocity.y < (GravityCalcWith roundFloat delta e).velocity.y := by
  have hval := GravityCalcWith_airborne roundFloat delta e hair
  have hrel := releasedVelocity_ge e
  constructor
  · rw [hval]
    have hG : 0 ≤ roundFloat (e.gravity * delta) := roundFloat_nonneg hg
    have h1 : releasedVelocity e ≤ roundFloat (releasedVelocity e + roundFloat (e.gravity * delta)) := by
      have := roundFloat_mono (by linarith :
        releasedVelocity e ≤ releasedVelocity e + roundFloat (e.gravity * delta))
      rwa [roundFloat_releasedVelocity e hrv hrr] at this
    exact le_min (le_trans hrel h1) hv
  · intro s a b p hs ha hb hp ha23 hb23 hp0 hp23 hlt
    have h2s : (0 : ℚ) < 2 ^ s := by positivity
    obtain ⟨c, hc, hc23⟩ : ∃ c : ℤ, releasedVelocity e = (c : ℚ) / 2 ^ s ∧ |c| < 2 ^ 23 := by
      unfold releasedVelocity
      split_ifs
      · exact ⟨b, hb, hb23⟩
      · exact ⟨a, ha, ha23⟩
    have hsum : roundFloat (releasedVelocity e + roundFloat (e.gravity * delta))
        = releasedVelocity e + (p : ℚ) / 2 ^ s := by
      rw [hp, hc]
      have e3 : (c : ℚ) / 2 ^ s + (p : ℚ) / 2 ^ s = ((c + p : ℤ) : ℚ) / 2 ^ s := by
        push_cast; ring
      rw [e3]
      apply roundFloat_grid _ _ _ hs
      obtain ⟨h1, h2⟩ := abs_lt.mp hc23
      rw [abs_lt]
      constructor <;> omega
    have hstep : (0 : ℚ) < (p : ℚ) / 2 ^ s := by
      have : (0 : ℚ) < (p : ℚ) := by exact_mod_cast hp0
      positivity
    rw [hval] at hlt ⊢
    have hm : min (roundFloat (releasedVelocity e + roundFloat (e.gravity * delta)))
        (-e.jumpImpulse)
        = roundFloat (releasedVelocity e + roundFloat (e.gravity * delta)) := by
      rcases min_choice (roundFloat (releasedVelocity e + roundFloat (e.gravity * delta)))
        (-e.jumpImpulse) with h | h
      · exact h
      · rw [h] at hlt; exact absurd hlt (lt_irrefl _)
    rw [hm, hsum]
    linarith

/-- Witness for C15 as amended: the rising demo player with the jump input released,
`delta = 1/64`; all values are whole numbers and the velocity goes from `-1612800` to
`-238860`. -/
theorem GravityCalc_binary32_velocity_monotone_witness :
    releasedPlayer.velocity.y ≤ (GravityCalcWith roundFloat (1 / 64) releasedPlayer).velocity.y ∧
    releasedPlayer.velocity.y < (GravityCalcWith roundFloat (1 / 64) releasedPlayer).velocity.y :=
  ⟨(GravityCalc_binary32_velocity_monotone (1 / 64) releasedPlayer (by decide!) (by decide!)
      (by decide!) (by decide!) (by decide!)).1,
    (GravityCalc_binary32_velocity_monotone (1 / 64) releasedPlayer (by decide!) (by decide!)
      (by decide!) (by decide!) (by decide!)).2 0 (-1612800) (-322560) 83700 (by decide)
      (by decide!) (by decide!) (by decide!) (by decide) (by decide) (by decide) (by decide)
      (by decide!)⟩

/-- C15, as stated, fails in the program's binary32 arithmetic: the airborne demo player
rising at `velocity.y = -1612800` with the jump input held and `delta = 2 ^ -30` has the
positive step `gravity * delta = 5356800 / 2 ^ 30`, below half the spacing `2 ^ -3` of
binary32 values at `1612800`. The sum rounds back to `-1612800`, which is below the
terminal value `1612800`, so `velocity.y` does not strictly increase. -/
theorem GravityCalc_binary32_absorbs_gravity :
    risingPlayer.isGrounded = false ∧
    risingPlayer.velocity.y = -1612800 ∧
    risingPlayer.velocity.y ≤ -risingPlayer.jumpImpulse ∧
    0 < risingPlayer.gravity * (1 / 1073741824) ∧
    roundFloat (-1612800 + 5356800 / 1073741824) = -1612800 ∧
    (GravityCalcWith roundFloat (1 / 1073741824) risingPlayer).velocity.y = -1612800 ∧
    (GravityCalcWith roundFloat (1 / 1073741824) risingPlayer).velocity.y
      < -risingPlayer.jumpImpulse ∧
    ¬ risingPlayer.velocity.y
      < (GravityCalcWith roundFloat (1 / 1073741824) risingPlayer).velocity.y := by
  decide!

end Platformer
